import Mathlib

/-!
# Verification of the FarmersMarketMap discovery and extraction pipeline

A shallow embedding, in Lean 4, of the core logic of the FarmersMarketMap
repository:

* `vendor_page_finder.py` — link scoring, content scoring and the bounded
  crawl that produces `VendorPageCandidate` records;
* `vendor_crawler.py` — the page-confidence scorer;
* `test_claude_response.py` / `debug_json_parsing.py` — the resilient
  LLM-output recovery functions built on `json.loads` and a handful of
  fixed regular expressions;
* `claude_vendor_extractor.py` / `llm_vendor_extractor.py` — vendor record
  construction from parsed LLM output and the per-page error handling;
* `comprehensive_vendor_extractor.py` — per-site name-based deduplication.

Modelling conventions:

* Python strings are Lean `String`s; positions and slices are in characters
  (`String.data : List Char`), matching Python's code-point semantics.
* Python floats are modelled as exact rationals `ℚ`; every claim proved here
  concerns order-of-magnitude thresholds, clamping and defaults, all of which
  are insensitive to the exact/binary distinction.
* Python exceptions are modelled with `Except String`; a `try/except` block
  becomes an explicit `match` on the `Except` value.
* `json.loads` is modelled by `json_loads`, a strict recursive-descent JSON
  reader that (like Python's) rejects trailing commas and trailing garbage.
* The fixed regular expressions used by the sources are modelled by
  special-purpose matchers with the same (lazy / greedy / non-overlapping
  findall) semantics on the inputs of interest.
* Network fetches and LLM calls are oracles passed in as parameters.
-/

set_option maxRecDepth 10000

/-! ## Basic character and string utilities -/

/-- ASCII lower-casing of a character (`str.lower` on the ASCII inputs used). -/
def asciiLowerChar (c : Char) : Char :=
  if 'A' ≤ c ∧ c ≤ 'Z' then Char.ofNat (c.toNat + 32) else c

/-- `str.lower()` (ASCII). -/
def asciiLower (s : String) : String := ⟨s.data.map asciiLowerChar⟩

/-- Python whitespace as used by `str.strip`, `\s` and `str.splitlines`. -/
def isPySpace (c : Char) : Bool :=
  c = ' ' ∨ c = '\t' ∨ c = '\n' ∨ c = '\r' ∨ c = Char.ofNat 11 ∨ c = Char.ofNat 12

/-- `str.strip()` on a character list. -/
def stripL (l : List Char) : List Char :=
  ((l.dropWhile isPySpace).reverse.dropWhile isPySpace).reverse

/-- `str.strip()`. -/
def pyStrip (s : String) : String := ⟨stripL s.data⟩

/-- Python's `pat in s` substring test, on character lists. -/
def listContains (pat : List Char) : List Char → Bool
  | [] => pat.isEmpty
  | c :: cs => pat.isPrefixOf (c :: cs) || listContains pat cs

/-- Python's `pat in s` substring test on strings. -/
def containsStr (s pat : String) : Bool := listContains pat.data s.data

/-- Python's `s.count(pat)` (non-overlapping, left to right; `pat` nonempty
in every use below). Fuel-driven structural recursion — every step consumes
at least one character, so the wrapper's fuel is never exhausted. -/
def countSubAux (pat : List Char) : Nat → List Char → Nat
  | 0, _ => 0
  | _, [] => 0
  | fuel + 1, c :: cs =>
    if pat.isPrefixOf (c :: cs) then 1 + countSubAux pat fuel (cs.drop (pat.length - 1))
    else countSubAux pat fuel cs

def countSub (pat cs : List Char) : Nat := countSubAux pat (cs.length + 1) cs

/-- Sum of `content.count(k)` over a keyword list (the accumulation loops of
`analyze_content_for_vendors` and `calculate_vendor_page_confidence`). -/
def sumCounts (s : String) (pats : List String) : Nat :=
  pats.foldl (fun acc p => acc + countSub p.data s.data) 0

/-- First `n` characters, `s[:n]` in Python. -/
def strTake (s : String) (n : Nat) : String := ⟨s.data.take n⟩

/-- `s[a:b]` in Python (for `0 ≤ a ≤ b`). -/
def strSlice (s : String) (a b : Nat) : String := ⟨(s.data.take b).drop a⟩

/-- Break a character list at the first occurrence of `c`:
`some (before, after)` with the list equal to `before ++ c :: after` and `c`
not occurring in `before`. -/
def breakAtChar (c : Char) : List Char → Option (List Char × List Char)
  | [] => Option.none
  | x :: xs =>
    if x = c then some ([], xs)
    else (breakAtChar c xs).map (fun p => (x :: p.1, p.2))

theorem breakAtChar_some_length {c : Char} :
    ∀ {cs b a : List Char}, breakAtChar c cs = some (b, a) → a.length < cs.length := by
  intro cs
  induction cs with
  | nil => intro b a h; simp [breakAtChar] at h
  | cons x xs ih =>
    intro b a h
    by_cases hx : x = c
    · simp [breakAtChar, hx] at h
      simp [← h.2]
    · simp only [breakAtChar, if_neg hx, Option.map_eq_some'] at h
      obtain ⟨⟨b', a'⟩, hb, he⟩ := h
      have hlen := ih hb
      simp only [List.length_cons]
      have ha : a = a' := by simpa using congrArg Prod.snd he.symm
      subst ha
      omega

theorem breakAtChar_cons_self (c : Char) (xs : List Char) :
    breakAtChar c (c :: xs) = some ([], xs) := by
  simp [breakAtChar]

theorem breakAtChar_append_of_not_mem {c : Char} {pre : List Char} (h : c ∉ pre)
    (cs : List Char) :
    breakAtChar c (pre ++ cs) =
      (breakAtChar c cs).map (fun p => (pre ++ p.1, p.2)) := by
  induction pre with
  | nil => simp
  | cons x xs ih =>
    have hx : x ≠ c := by intro he; exact h (by simp [he])
    have hxs : c ∉ xs := fun hm => h (by simp [hm])
    simp only [List.cons_append, breakAtChar, if_neg hx, List.append_eq]
    rw [ih hxs]
    cases breakAtChar c cs with
    | none => rfl
    | some p => simp

/-- First index (in characters) of `pat` in `s`, Python `s.find(pat)` with
`none` for `-1`. -/
def findIdxFrom (pat : List Char) : List Char → Nat → Option Nat
  | [], i => if pat.isEmpty then some i else Option.none
  | c :: cs, i =>
    if pat.isPrefixOf (c :: cs) then some i else findIdxFrom pat cs (i + 1)

/-- Python `s.find(pat)`. -/
def strFind (s pat : String) : Option Nat := findIdxFrom pat.data s.data 0

/-- Python `s.find(pat, start)`. -/
def strFindFrom (s pat : String) (start : Nat) : Option Nat :=
  (findIdxFrom pat.data (s.data.drop start) 0).map (· + start)

/-- Index of the last occurrence of character `c`, Python `s.rfind(c)`. -/
def strRfindChar (s : String) (c : Char) : Option Nat :=
  (s.data.reverse.findIdx? (· = c)).map (fun i => s.data.length - 1 - i)

/-- Split on a line boundary: Python `str.splitlines` handles `\n`, `\r` and
`\r\n`. Returns the first line and the remainder after the terminator,
or `(cs, [])` when no terminator occurs. -/
def breakLine : List Char → List Char × List Char
  | [] => ([], [])
  | c :: rest =>
    if c = '\r' then ([], if rest.head? = some '\n' then rest.tail else rest)
    else if c = '\n' then ([], rest)
    else
      let p := breakLine rest
      (c :: p.1, p.2)

theorem breakLine_snd_length : ∀ cs : List Char, cs ≠ [] → (breakLine cs).2.length < cs.length := by
  intro cs
  induction cs with
  | nil => intro h; exact absurd rfl h
  | cons c rest ih =>
    intro _
    simp only [breakLine]
    split_ifs with h1 h2 h3
    · simp only [List.length_cons]
      have ht := List.length_tail rest
      omega
    · simp
    · simp
    · simp only [List.length_cons]
      cases rest with
      | nil => simp [breakLine]
      | cons d r =>
        have hlt := ih (by simp)
        omega

/-- Python `str.splitlines()` (restricted to the `\n`/`\r`/`\r\n`
terminators; the repository's page text uses only these). -/
def splitLinesAux : Nat → List Char → List (List Char)
  | 0, _ => []
  | _, [] => []
  | fuel + 1, c :: cs =>
    let p := breakLine (c :: cs)
    p.1 :: splitLinesAux fuel p.2

def splitLinesL (cs : List Char) : List (List Char) := splitLinesAux (cs.length + 1) cs

/-- Python `s.split(sep)` with an explicit nonempty separator. -/
def splitSepAux (sep : List Char) : Nat → List Char → List (List Char)
  | 0, _ => [[]]
  | _, [] => [[]]
  | fuel + 1, c :: cs =>
    if sep.isPrefixOf (c :: cs) ∧ sep ≠ [] then
      [] :: splitSepAux sep fuel (cs.drop (sep.length - 1))
    else
      match splitSepAux sep fuel cs with
      | [] => [[c]]
      | h :: t => (c :: h) :: t

def splitSepL (sep cs : List Char) : List (List Char) := splitSepAux sep (cs.length + 1) cs

/-- The whitespace-normalisation idiom shared by the crawlers:

```
lines = (line.strip() for line in content.splitlines())
chunks = (phrase.strip() for line in lines for phrase in line.split("  "))
content = ' '.join(chunk for chunk in chunks if chunk)
``` -/
def cleanContent (content : String) : String :=
  let lines := (splitLinesL content.data).map stripL
  let chunks := (lines.map (fun line => (splitSepL [' ', ' '] line).map stripL)).flatten
  ⟨List.intercalate [' '] (chunks.filter (fun c => ¬ c.isEmpty))⟩

/-! ## Python/JSON values

`PyVal` models the Python values that flow out of `json.loads` and through
the extraction code: strings, numbers (exact rationals in place of floats),
booleans, `None`/`null`, lists and dicts. -/

inductive PyVal where
  | str (s : String)
  | num (q : ℚ)
  | bool (b : Bool)
  | null
  | list (items : List PyVal)
  | dict (entries : List (String × PyVal))

/-- Constructor discriminant, used to separate structurally different
results without needing decidable equality of nested values. -/
def PyVal.tag : PyVal → Nat
  | .str _ => 0
  | .num _ => 1
  | .bool _ => 2
  | .null => 3
  | .list _ => 4
  | .dict _ => 5

/-- Python `isinstance(v, list)`. -/
def PyVal.isList : PyVal → Bool
  | .list _ => true
  | _ => false

/-- Python `isinstance(v, (int, float))`. -/
def PyVal.isNum : PyVal → Bool
  | .num _ => true
  | _ => false

/-- Discriminant of the first element of a list value (`99` otherwise). -/
def PyVal.headTag : PyVal → Nat
  | .list (x :: _) => x.tag
  | _ => 99

/-- Python `d.get(k)` on a dict built by `json.loads`: with duplicate keys
the last occurrence wins, as in Python. -/
def dictGet (k : String) : List (String × PyVal) → Option PyVal
  | [] => Option.none
  | (k', v) :: rest =>
    match dictGet k rest with
    | some r => some r
    | Option.none => if k' = k then some v else Option.none

/-- Python `k in d`. -/
def dictHas (k : String) (entries : List (String × PyVal)) : Bool :=
  entries.any (fun e => e.1 = k)

/-! ## A model of `json.loads`

Strict recursive-descent JSON reading: rejects trailing commas, unquoted
keys and trailing garbage, exactly where Python's `json` module raises
`JSONDecodeError`. Recursion is bounded by a fuel parameter that the
top-level entry point sets larger than the input can consume; running out
of fuel yields an error, which every caller treats exactly like a decode
error (Python's `json` would raise `RecursionError` similarly caught by the
sources' blanket handlers). -/

/-- JSON whitespace. -/
def isJsonWs (c : Char) : Bool := c = ' ' ∨ c = '\t' ∨ c = '\n' ∨ c = '\r'

def skipWs (cs : List Char) : List Char := cs.dropWhile isJsonWs

def isDigitCh (c : Char) : Bool := '0' ≤ c ∧ c ≤ '9'

def digitVal (c : Char) : Nat := c.toNat - '0'.toNat

/-- Read a maximal run of digits, returning the value, the number of
digits and the remainder. -/
def readDigits : List Char → Nat → Nat → Nat × Nat × List Char
  | [], acc, n => (acc, n, [])
  | c :: cs, acc, n =>
    if isDigitCh c then readDigits cs (acc * 10 + digitVal c) (n + 1)
    else (acc, n, c :: cs)

/-- Parse a JSON number after an optional leading minus sign has been
recorded: integer part, optional fraction, optional exponent. -/
def parseNumTail (cs : List Char) (neg : Bool) : Except String (ℚ × List Char) :=
  let (ip, idigits, r1) := readDigits cs 0 0
  if idigits = 0 then .error "Expecting value" else
  let (frac, fdigits, r2) :=
    match r1 with
    | '.' :: r => readDigits r 0 0
    | _ => (0, 0, r1)
  let r2' := if fdigits = 0 then r1 else r2
  let withFrac : ℚ := (ip : ℚ) + (frac : ℚ) / ((10 : ℚ) ^ fdigits)
  let expPart : Except String (Int × List Char) :=
    match r2' with
    | 'e' :: r | 'E' :: r =>
      match r with
      | '-' :: r' =>
        let (e, ed, r'') := readDigits r' 0 0
        if ed = 0 then .error "Expecting value" else .ok (-(e : Int), r'')
      | '+' :: r' =>
        let (e, ed, r'') := readDigits r' 0 0
        if ed = 0 then .error "Expecting value" else .ok ((e : Int), r'')
      | _ =>
        let (e, ed, r'') := readDigits r 0 0
        if ed = 0 then .error "Expecting value" else .ok ((e : Int), r'')
    | _ => .ok (0, r2')
  match expPart with
  | .error e => .error e
  | .ok (ex, r3) =>
    let mag : ℚ := withFrac * (10 : ℚ) ^ ex
    .ok (if neg then -mag else mag, r3)

def hexDigitVal (c : Char) : Option Nat :=
  if isDigitCh c then some (digitVal c)
  else if 'a' ≤ c ∧ c ≤ 'f' then some (c.toNat - 'a'.toNat + 10)
  else if 'A' ≤ c ∧ c ≤ 'F' then some (c.toNat - 'A'.toNat + 10)
  else Option.none

/-- Parse the body of a JSON string (after the opening quote), handling the
standard escapes. -/
def parseStrBody : Nat → List Char → List Char → Except String (String × List Char)
  | 0, _, _ => .error "Unterminated string"
  | _, [], _ => .error "Unterminated string"
  | fuel + 1, c :: cs, acc =>
    if c = '"' then .ok (⟨acc.reverse⟩, cs)
    else if c = '\\' then
      match cs with
      | [] => .error "Unterminated string"
      | e :: cs' =>
        if e = '"' then parseStrBody fuel cs' ('"' :: acc)
        else if e = '\\' then parseStrBody fuel cs' ('\\' :: acc)
        else if e = '/' then parseStrBody fuel cs' ('/' :: acc)
        else if e = 'b' then parseStrBody fuel cs' (Char.ofNat 8 :: acc)
        else if e = 'f' then parseStrBody fuel cs' (Char.ofNat 12 :: acc)
        else if e = 'n' then parseStrBody fuel cs' ('\n' :: acc)
        else if e = 'r' then parseStrBody fuel cs' ('\r' :: acc)
        else if e = 't' then parseStrBody fuel cs' ('\t' :: acc)
        else if e = 'u' then
          match cs' with
          | h1 :: h2 :: h3 :: h4 :: cs'' =>
            match hexDigitVal h1, hexDigitVal h2, hexDigitVal h3, hexDigitVal h4 with
            | some v1, some v2, some v3, some v4 =>
              parseStrBody fuel cs'' (Char.ofNat (((v1 * 16 + v2) * 16 + v3) * 16 + v4) :: acc)
            | _, _, _, _ => .error "Invalid unicode escape"
          | _ => .error "Invalid unicode escape"
        else .error "Invalid escape"
    else parseStrBody fuel cs (c :: acc)

mutual

/-- One JSON value, leading whitespace allowed. -/
def parseVal : Nat → List Char → Except String (PyVal × List Char)
  | 0, _ => .error "Too deeply nested"
  | fuel + 1, cs =>
    match skipWs cs with
    | [] => .error "Expecting value"
    | c :: rest =>
      if c = '"' then
        match parseStrBody (rest.length + 1) rest [] with
        | .ok (s, r) => .ok (.str s, r)
        | .error e => .error e
      else if c = '[' then
        match skipWs rest with
        | ']' :: r => .ok (.list [], r)
        | _ =>
          match parseArrElems fuel rest [] with
          | .ok (items, r) => .ok (.list items, r)
          | .error e => .error e
      else if c = '{' then
        match skipWs rest with
        | '}' :: r => .ok (.dict [], r)
        | _ =>
          match parseObjMems fuel rest [] with
          | .ok (mems, r) => .ok (.dict mems, r)
          | .error e => .error e
      else if c = 't' then
        if ['r', 'u', 'e'].isPrefixOf rest then .ok (.bool true, rest.drop 3)
        else .error "Expecting value"
      else if c = 'f' then
        if ['a', 'l', 's', 'e'].isPrefixOf rest then .ok (.bool false, rest.drop 4)
        else .error "Expecting value"
      else if c = 'n' then
        if ['u', 'l', 'l'].isPrefixOf rest then .ok (.null, rest.drop 3)
        else .error "Expecting value"
      else if c = '-' then
        match parseNumTail rest true with
        | .ok (q, r) => .ok (.num q, r)
        | .error e => .error e
      else if isDigitCh c then
        match parseNumTail (c :: rest) false with
        | .ok (q, r) => .ok (.num q, r)
        | .error e => .error e
      else .error "Expecting value"

/-- Array elements after `[` (at least one element; `]` directly after a
comma — a trailing comma — is a parse error, as in Python). -/
def parseArrElems : Nat → List Char → List PyVal → Except String (List PyVal × List Char)
  | 0, _, _ => .error "Too deeply nested"
  | fuel + 1, cs, acc =>
    match parseVal fuel cs with
    | .error e => .error e
    | .ok (v, r) =>
      match skipWs r with
      | ',' :: r' => parseArrElems fuel r' (acc ++ [v])
      | ']' :: r' => .ok (acc ++ [v], r')
      | _ => .error "Expecting comma delimiter"

/-- Object members after `{`. -/
def parseObjMems : Nat → List Char → List (String × PyVal) →
    Except String (List (String × PyVal) × List Char)
  | 0, _, _ => .error "Too deeply nested"
  | fuel + 1, cs, acc =>
    match skipWs cs with
    | '"' :: r =>
      match parseStrBody (r.length + 1) r [] with
      | .error e => .error e
      | .ok (k, r1) =>
        match skipWs r1 with
        | ':' :: r2 =>
          match parseVal fuel r2 with
          | .error e => .error e
          | .ok (v, r3) =>
            match skipWs r3 with
            | ',' :: r4 => parseObjMems fuel r4 (acc ++ [(k, v)])
            | '}' :: r4 => .ok (acc ++ [(k, v)], r4)
            | _ => .error "Expecting comma delimiter"
        | _ => .error "Expecting colon delimiter"
    | _ => .error "Expecting property name enclosed in double quotes"

end

/-- `json.loads` on a character list: one value, optionally surrounded by
whitespace, nothing else. -/
def json_loadsL (cs : List Char) : Except String PyVal :=
  match parseVal (2 * cs.length + 2) cs with
  | .error e => .error e
  | .ok (v, r) =>
    match skipWs r with
    | [] => .ok v
    | _ => .error "Extra data"

/-- `json.loads` on a string. -/
def json_loads (s : String) : Except String PyVal := json_loadsL s.data

/-! ## Models of the fixed regular expressions used by the parsers

`test_claude_response.improved_json_parser` uses, in order:
`re.findall` with the lazy span patterns for brackets and braces, the two
fenced-code-block patterns, and — in its text fallback — the capture
pattern for `"name": "<value>"` occurrences. `debug_json_parsing` uses
`re.search` with the lazy bracket span. -/

/-- All non-overlapping lazy spans `op … cl` (the semantics of
`re.findall` with a lazy any-character repetition between two fixed
delimiters): each span runs from an opening delimiter to the nearest
following closing delimiter, and scanning resumes after the span. -/
def lazySpansAux (op cl : Char) : Nat → List Char → List (List Char)
  | 0, _ => []
  | fuel + 1, cs =>
    match breakAtChar op cs with
    | Option.none => []
    | some (_, afterOpen) =>
      match breakAtChar cl afterOpen with
      | Option.none => []
      | some (mid, rest) => (op :: (mid ++ [cl])) :: lazySpansAux op cl fuel rest

def lazySpans (op cl : Char) (cs : List Char) : List (List Char) :=
  lazySpansAux op cl (cs.length + 1) cs

/-- The backtick character, `chr(96)`. -/
def btick : Char := Char.ofNat 96

/-- Remainder after the first occurrence of `pat` (nonempty in all uses). -/
def findSubRest (pat : List Char) : List Char → Option (List Char)
  | [] => Option.none
  | c :: cs =>
    if pat.isPrefixOf (c :: cs) then some (cs.drop (pat.length - 1))
    else findSubRest pat cs

/-- After the opening bracket of a fenced block, lazily look for the first
closing bracket that is followed by optional whitespace and a closing
fence; returns the captured span (brackets included) and the remainder
after the fence. -/
def lazyFencedBody (acc : List Char) : List Char → Option (List Char × List Char)
  | [] => Option.none
  | c :: cs =>
    if c = ']' then
      let rest := cs.dropWhile isPySpace
      if [btick, btick, btick].isPrefixOf rest then
        some (('[' :: acc.reverse) ++ [']'], rest.drop 3)
      else lazyFencedBody (c :: acc) cs
    else lazyFencedBody (c :: acc) cs

/-- Occurrences of a fenced pattern `<tag>\s*(\[…\])\s*<fence>`; on failure at
one tag occurrence, scanning continues from after that tag, and on success
from after the closing fence (`re.findall` semantics). Fuel-driven; the
initial fuel exceeds the number of possible matches. -/
def fencedCandsAux (tag : List Char) : Nat → List Char → List (List Char)
  | 0, _ => []
  | fuel + 1, cs =>
    match findSubRest tag cs with
    | Option.none => []
    | some rest =>
      match rest.dropWhile isPySpace with
      | '[' :: body =>
        (match lazyFencedBody [] body with
         | some (span, after) => span :: fencedCandsAux tag fuel after
         | Option.none => fencedCandsAux tag fuel rest)
      | _ => fencedCandsAux tag fuel rest

/-- The pattern `r'```json\s*(\[[\s\S]*?\])\s*```'`. -/
def fencedJsonCands (cs : List Char) : List (List Char) :=
  fencedCandsAux [btick, btick, btick, 'j', 's', 'o', 'n'] (cs.length + 1) cs

/-- The pattern `r'```\s*(\[[\s\S]*?\])\s*```'`. -/
def fencedPlainCands (cs : List Char) : List (List Char) :=
  fencedCandsAux [btick, btick, btick] (cs.length + 1) cs

/-- Case-insensitive prefix test (the `re.IGNORECASE` flag). -/
def icPrefixOf : List Char → List Char → Bool
  | [], _ => true
  | _ :: _, [] => false
  | p :: ps, c :: cs => asciiLowerChar p = asciiLowerChar c && icPrefixOf ps cs

/-- One attempt of the capture pattern `r'"name":\s*"([^"]+)"'` (with
`re.IGNORECASE`) at the current position: the literal key, optional
whitespace, then a nonempty greedy run of non-quote characters between
quotes. Returns the capture and the remainder after the match. -/
def matchNameCapture (cs : List Char) : Option (List Char × List Char) :=
  if icPrefixOf ['"', 'n', 'a', 'm', 'e', '"', ':'] cs then
    match (cs.drop 7).dropWhile isPySpace with
    | '"' :: r2 =>
      let cap := r2.takeWhile (fun c => ¬ c = '"')
      if cap.isEmpty then Option.none
      else
        match r2.drop cap.length with
        | '"' :: r3 => some (cap, r3)
        | _ => Option.none
    | _ => Option.none
  else Option.none

/-- `re.findall` for the name-capture pattern (fuel-driven scanner;
every match consumes at least one character). -/
def nameCapturesAux : Nat → List Char → List (List Char)
  | 0, _ => []
  | _, [] => []
  | fuel + 1, c :: cs =>
    match matchNameCapture (c :: cs) with
    | some (cap, rest) => cap :: nameCapturesAux fuel rest
    | Option.none => nameCapturesAux fuel cs

def nameCaptures (cs : List Char) : List (List Char) :=
  nameCapturesAux (cs.length + 1) cs

/-! ## `test_claude_response.improved_json_parser` -/

/-- `extract_vendors_from_text` (test_claude_response.py, lines 68-85): only
the first of its four listed patterns is ever applied; each captured name
becomes a partial record tagged `"source": "regex_extraction"`. -/
def extract_vendors_from_text (text : String) : List PyVal :=
  (nameCaptures text.data).map
    (fun nm => PyVal.dict [("name", PyVal.str ⟨nm⟩), ("source", PyVal.str "regex_extraction")])

/-- Try `json.loads` on each candidate span in order, returning the first
success (the per-candidate `try/except json.JSONDecodeError: continue`). -/
def firstOkParse : List (List Char) → Option PyVal
  | [] => Option.none
  | c :: rest =>
    match json_loadsL c with
    | .ok v => some v
    | .error _ => firstOkParse rest

/-- The body of `improved_json_parser` (test_claude_response.py, lines
20-62), i.e. everything inside its outer `try`. Each inner
`try/except json.JSONDecodeError` is an explicit match, so a value of the
form `.error e` would mean an exception reaching the outer handler.

Method 1 parses the whole response; method 2 iterates the four patterns
(lazy bracket span, lazy brace span, ```json fence, bare fence) and
returns the first candidate that parses; the fallback extracts
`"name": "…"` captures, returning them if nonempty and the empty list
otherwise (both cases are a Python list, so one branch below). -/
def improvedTry (s : String) : Except String PyVal :=
  match json_loads s with
  | .ok v => .ok v
  | .error _ =>
    match firstOkParse (lazySpans '[' ']' s.data) with
    | some v => .ok v
    | Option.none =>
      match firstOkParse (lazySpans '{' '}' s.data) with
      | some v => .ok v
      | Option.none =>
        match firstOkParse (fencedJsonCands s.data) with
        | some v => .ok v
        | Option.none =>
          match firstOkParse (fencedPlainCands s.data) with
          | some v => .ok v
          | Option.none => .ok (.list (extract_vendors_from_text s))

/-- `improved_json_parser`: the outer `try/except Exception: return []`. -/
def improvedJsonParser (s : String) : PyVal :=
  match improvedTry s with
  | .ok v => v
  | .error _ => .list []

/-! ## `debug_json_parsing.debug_parse_json_response` -/

/-- The body of `debug_parse_json_response` (debug_json_parsing.py, lines
18-55): `re.search(r'\[.*?\]', …, re.DOTALL)` then `json.loads` on the
span; on failure, `json.loads` of the entire response; on failure again,
fall through to `return []`. -/
def debugTry (s : String) : Except String PyVal :=
  let entire : Except String PyVal :=
    match json_loads s with
    | .ok v => .ok v
    | .error _ => .ok (.list [])
  match (lazySpans '[' ']' s.data).head? with
  | some span =>
    (match json_loadsL span with
     | .ok v => .ok v
     | .error _ => entire)
  | Option.none => entire

/-- `debug_parse_json_response`: outer `try/except`, then `return []`. -/
def debug_parse_json_response (s : String) : PyVal :=
  match debugTry s with
  | .ok v => v
  | .error _ => .list []

/-! ## `vendor_page_finder.VendorPageFinder` — link and content scoring -/

namespace VPF

/-- `self.vendor_link_keywords['high_priority']`. -/
def high_priority_keywords : List String :=
  ["vendors", "our vendors", "vendor directory", "farmers", "our farmers", "growers"]

/-- `self.vendor_link_keywords['medium_priority']`. -/
def medium_priority_keywords : List String :=
  ["participants", "market vendors", "who we are", "meet the vendors", "producers"]

/-- `self.vendor_link_keywords['low_priority']`. -/
def low_priority_keywords : List String :=
  ["vendor list", "vendor info", "about vendors", "artisans", "businesses"]

/-- `self.content_indicators['vendor_names']`. -/
def vendor_names_indicators : List String :=
  ["farm", "bakery", "gardens", "orchard", "kitchen", "creamery", "ranch", "dairy"]

/-- `self.content_indicators['business_indicators']`. -/
def business_indicators : List String :=
  ["llc", "inc", "co.", "company", "family owned", "organic", "certified"]

/-- `self.content_indicators['product_indicators']`. -/
def product_indicators : List String :=
  ["specializes in", "produces", "offers", "sells", "grows", "bakes", "makes"]

/-- `self.content_indicators['contact_indicators']`. -/
def contact_indicators : List String :=
  ["phone:", "email:", "website:", "contact:", "@", "www."]

/-! ### `urllib.parse` model (scheme://netloc/path, restricted to the
absolute http(s) URLs this crawler feeds it) -/

/-- Everything before `"://"` (empty when absent). -/
def urlScheme (u : String) : String :=
  match findIdxFrom [':', '/', '/'] u.data 0 with
  | some i => ⟨u.data.take i⟩
  | Option.none => ""

/-- The part after `"://"`, or the whole string when absent. -/
def urlAfterScheme (u : String) : List Char :=
  match findIdxFrom [':', '/', '/'] u.data 0 with
  | some i => u.data.drop (i + 3)
  | Option.none => u.data

/-- `urlparse(u).netloc` for the URLs in play. -/
def urlNetloc (u : String) : String :=
  match findIdxFrom [':', '/', '/'] u.data 0 with
  | some i => ⟨(u.data.drop (i + 3)).takeWhile (fun c => ¬ (c = '/' ∨ c = '?' ∨ c = '#'))⟩
  | Option.none => ""

/-- `urlparse(u).path` for the URLs in play. -/
def urlPath (u : String) : String :=
  let tail :=
    match findIdxFrom [':', '/', '/'] u.data 0 with
    | some i => (u.data.drop (i + 3)).dropWhile (fun c => ¬ (c = '/' ∨ c = '?' ∨ c = '#'))
    | Option.none => u.data
  ⟨tail.takeWhile (fun c => ¬ (c = '?' ∨ c = '#'))⟩

/-! ### `score_link_for_vendors` (vendor_page_finder.py, lines 46-78) -/

/-- One keyword tier with both a link-text weight and a URL-path weight:
`for keyword in tier: if keyword in text: score += wT; if keyword in url: score += wU`
(reason strings mirror the source's f-strings, with the quote marks around
the keyword elided). -/
def foldTierTextUrl (tl up : String) (wT wU : ℚ) (tierName : String)
    (kws : List String) (acc : ℚ × List String) : ℚ × List String :=
  kws.foldl
    (fun acc k =>
      let acc :=
        if containsStr tl k then
          (acc.1 + wT, acc.2 ++ [tierName ++ " priority keyword " ++ k ++ " in link text"])
        else acc
      if containsStr up k then
        (acc.1 + wU, acc.2 ++ [tierName ++ " priority keyword " ++ k ++ " in URL"])
      else acc)
    acc

/-- The low-priority tier scores link text only. -/
def foldTierTextOnly (tl : String) (wT : ℚ) (tierName : String)
    (kws : List String) (acc : ℚ × List String) : ℚ × List String :=
  kws.foldl
    (fun acc k =>
      if containsStr tl k then
        (acc.1 + wT, acc.2 ++ [tierName ++ " priority keyword " ++ k ++ " in link text"])
      else acc)
    acc

/-- `score_link_for_vendors(link_text, link_url)`: high tier 0.4/0.3,
medium tier 0.2/0.15, low tier 0.1 (text only), result clamped at 1.0. -/
def score_link_for_vendors (link_text link_url : String) : ℚ × List String :=
  let tl := pyStrip (asciiLower link_text)
  let up := asciiLower (urlPath link_url)
  let acc := foldTierTextUrl tl up 0.4 0.3 "High" high_priority_keywords (0, [])
  let acc := foldTierTextUrl tl up 0.2 0.15 "Medium" medium_priority_keywords acc
  let acc := foldTierTextOnly tl 0.1 "Low" low_priority_keywords acc
  (min acc.1 1, acc.2)

/-! ### The three regex counters of `analyze_content_for_vendors` -/

def isAsciiAlpha (c : Char) : Bool := ('a' ≤ c ∧ c ≤ 'z') ∨ ('A' ≤ c ∧ c ≤ 'Z')

def isUpperCh (c : Char) : Bool := 'A' ≤ c ∧ c ≤ 'Z'

def isWordCh (c : Char) : Bool := isAsciiAlpha c || isDigitCh c || c = '_'

/-- The character class `[a-zA-Z\s&'.]` of the list pattern. -/
def classNamePart (c : Char) : Bool :=
  isAsciiAlpha c || isPySpace c || c = '&' || c = Char.ofNat 39 || c = '.'

/-- The separator class `[-–—:]` (hyphen, en dash, em dash, colon). -/
def isSepDash (c : Char) : Bool :=
  c = '-' || c = Char.ofNat 8211 || c = Char.ofNat 8212 || c = ':'

/-- After the `{3,30}` name characters: `\s*[-–—:]\s*[^\.]{15,}` with the
final run greedy. Returns the remainder after the match. -/
def tryListTail (rest : List Char) : Option (List Char) :=
  match rest.dropWhile isPySpace with
  | [] => Option.none
  | d :: r2 =>
    if isSepDash d then
      let afterWs := r2.dropWhile isPySpace
      let body := afterWs.takeWhile (fun c => ¬ c = '.')
      if 15 ≤ body.length then some (afterWs.drop body.length) else Option.none
    else Option.none

/-- Greedy `{3,30}` with backtracking: try the longest allowed run of name
characters first, shrinking towards 3. -/
def tryListKs (cs : List Char) : Nat → Option (List Char)
  | 0 => Option.none
  | k + 1 =>
    if k + 1 < 3 then Option.none
    else
      match tryListTail (cs.drop (k + 1)) with
      | some r => some r
      | Option.none => tryListKs cs k

/-- One attempt of `r'[A-Z][a-zA-Z\s&\'\.]{3,30}\s*[-–—:]\s*[^\.]{15,}'`
at the current position. -/
def matchListPat : List Char → Option (List Char)
  | [] => Option.none
  | c :: cs =>
    if isUpperCh c then tryListKs cs (min (cs.takeWhile classNamePart).length 30)
    else Option.none

/-- Fuel-driven `re.findall` counter for boundary-free patterns. -/
def countScan (m : List Char → Option (List Char)) : Nat → List Char → Nat
  | 0, _ => 0
  | _, [] => 0
  | fuel + 1, c :: cs =>
    match m (c :: cs) with
    | some rest => 1 + countScan m fuel rest
    | Option.none => countScan m fuel cs

/-- Fuel-driven `re.findall` counter for patterns with `\b` word
boundaries; the boolean tracks whether the previous character was a word
character (both patterns below end in a word character, so scanning
resumes with it set). -/
def countScanB (m : Bool → List Char → Option (List Char)) : Nat → Bool → List Char → Nat
  | 0, _, _ => 0
  | _, _, [] => 0
  | fuel + 1, prevW, c :: cs =>
    match m prevW (c :: cs) with
    | some rest => 1 + countScanB m fuel true rest
    | Option.none => countScanB m fuel (isWordCh c) cs

/-- Consume exactly `n` digits. -/
def takeDigits : Nat → List Char → Option (List Char)
  | 0, cs => some cs
  | n + 1, [] => (fun _ => Option.none) n
  | n + 1, c :: cs => if isDigitCh c then takeDigits n cs else Option.none

/-- Optional `[-.]?` separator. -/
def dropOptSep (cs : List Char) : List Char :=
  match cs with
  | c :: rest => if c = '-' ∨ c = '.' then rest else cs
  | [] => cs

/-- One attempt of `r'\b\d{3}[-.]?\d{3}[-.]?\d{4}\b'`. -/
def matchPhoneAt (prevW : Bool) (cs : List Char) : Option (List Char) :=
  if prevW then Option.none
  else
    match takeDigits 3 cs with
    | Option.none => Option.none
    | some r1 =>
      match takeDigits 3 (dropOptSep r1) with
      | Option.none => Option.none
      | some r2 =>
        match takeDigits 4 (dropOptSep r2) with
        | Option.none => Option.none
        | some r3 =>
          match r3 with
          | [] => some r3
          | c :: _ => if isWordCh c then Option.none else some r3

/-- The local-part class `[A-Za-z0-9._%+-]`. -/
def classLocal (c : Char) : Bool :=
  isAsciiAlpha c || isDigitCh c || c = '.' || c = '_' || c = '%' || c = '+' || c = '-'

/-- The domain class `[A-Za-z0-9.-]`. -/
def classDomain (c : Char) : Bool := isAsciiAlpha c || isDigitCh c || c = '.' || c = '-'

/-- The top-level-domain class `[A-Z|a-z]`. -/
def classTld (c : Char) : Bool := isAsciiAlpha c || c = '|'

/-- Check whether the first `p` characters of the domain run split as
`D ++ "." ++ T` with `D` nonempty and `T` a tier of at least two TLD
characters, and whether a word boundary follows position `p`. -/
def emailSplitOk (dom : List Char) (p : Nat) (afterRun : List Char) : Bool :=
  let pref := dom.take p
  let t := (pref.reverse.takeWhile (fun c => ¬ c = '.')).reverse
  let boundaryNext : Option Char :=
    if p = dom.length then afterRun.head? else dom.drop p |>.head?
  decide (2 ≤ t.length) && t.all classTld && decide (t.length + 2 ≤ p) &&
    (match boundaryNext with
     | Option.none => true
     | some c => ¬ isWordCh c)

/-- Greedy search for the domain+TLD split, longest first. -/
def tryEmailEnd (dom : List Char) (afterRun : List Char) : Nat → Option (List Char)
  | 0 => Option.none
  | p + 1 =>
    if p + 1 < 4 then Option.none
    else if emailSplitOk dom (p + 1) afterRun then
      some ((dom.drop (p + 1)) ++ afterRun)
    else tryEmailEnd dom afterRun p

/-- One attempt of
`r'\b[A-Za-z0-9._%+-]+@[A-Za-z0-9.-]+\.[A-Z|a-z]{2,}\b'`. -/
def matchEmailAt (prevW : Bool) (cs : List Char) : Option (List Char) :=
  match cs with
  | [] => Option.none
  | c0 :: _ =>
    if ¬ classLocal c0 then Option.none
    else if (isWordCh c0) = prevW then Option.none
    else
      let lp := cs.takeWhile classLocal
      match cs.drop lp.length with
      | '@' :: r2 =>
        let dom := r2.takeWhile classDomain
        if dom.isEmpty then Option.none
        else tryEmailEnd dom (r2.drop dom.length) dom.length
      | _ => Option.none

/-! ### `analyze_content_for_vendors` (vendor_page_finder.py, lines 80-156)

The score is the sum of seven banded sub-scores, clamped at 1.0; the
reasons accumulate in the same order the source appends them. -/

def scoreVendorNames (n : Nat) : ℚ := if 5 ≤ n then 0.3 else if 2 ≤ n then 0.15 else 0

def reasonsVendorNames (n : Nat) : List String :=
  if 5 ≤ n then [s!"Many business type words found ({n})"]
  else if 2 ≤ n then [s!"Some business type words found ({n})"]
  else []

def scoreBusiness (n : Nat) : ℚ := if 3 ≤ n then 0.2 else 0

def reasonsBusiness (n : Nat) : List String :=
  if 3 ≤ n then [s!"Multiple business indicators ({n})"] else []

def scoreProduct (n : Nat) : ℚ := if 3 ≤ n then 0.2 else 0

def reasonsProduct (n : Nat) : List String :=
  if 3 ≤ n then [s!"Multiple product indicators ({n})"] else []

def scoreContact (n : Nat) : ℚ := if 5 ≤ n then 0.25 else if 2 ≤ n then 0.1 else 0

def reasonsContact (n : Nat) : List String :=
  if 5 ≤ n then [s!"Many contact indicators ({n})"]
  else if 2 ≤ n then [s!"Some contact indicators ({n})"]
  else []

def scoreListPat (n : Nat) : ℚ := if 3 ≤ n then 0.3 else 0

def reasonsListPat (n : Nat) : List String :=
  if 3 ≤ n then [s!"Structured list pattern detected ({n} entries)"] else []

def scorePhone (n : Nat) : ℚ := if 3 ≤ n then 0.2 else 0

def reasonsPhone (n : Nat) : List String :=
  if 3 ≤ n then [s!"Multiple phone numbers found ({n})"] else []

def scoreEmail (n : Nat) : ℚ := if 2 ≤ n then 0.15 else 0

def reasonsEmail (n : Nat) : List String :=
  if 2 ≤ n then [s!"Multiple email addresses found ({n})"] else []

/-- `analyze_content_for_vendors(content)`. -/
def analyze_content_for_vendors (content : String) : ℚ × List String :=
  let cl := asciiLower content
  let vendor_name_count := sumCounts cl vendor_names_indicators
  let business_count := sumCounts cl business_indicators
  let product_count := sumCounts cl product_indicators
  let contact_count := sumCounts cl contact_indicators
  let list_matches := countScan matchListPat (content.data.length + 1) content.data
  let phone_matches := countScanB matchPhoneAt (content.data.length + 1) false content.data
  let email_matches := countScanB matchEmailAt (content.data.length + 1) false content.data
  let score :=
    scoreVendorNames vendor_name_count + scoreBusiness business_count +
    scoreProduct product_count + scoreContact contact_count +
    scoreListPat list_matches + scorePhone phone_matches + scoreEmail email_matches
  let reasons :=
    reasonsVendorNames vendor_name_count ++ reasonsBusiness business_count ++
    reasonsProduct product_count ++ reasonsContact contact_count ++
    reasonsListPat list_matches ++ reasonsPhone phone_matches ++
    reasonsEmail email_matches
  (min score 1, reasons)

end VPF

namespace VPF

/-! ### The crawl (`find_vendor_page_candidates`, vendor_page_finder.py,
lines 158-251)

The network and the HTML parser are an oracle `fetch : String → Option Page`:
`none` models an exception inside the `try` block (network error), and a
`Page` carries the HTTP status, the text that `soup.get_text()` would
return after script/style removal, the `<title>` text when present and the
`(href, anchor text)` pairs of the page's `<a href=…>` tags in document
order. -/

structure Page where
  status : Nat
  content : String
  title : Option String
  links : List (String × String)

structure VendorPageCandidate where
  market_name : String
  page_url : String
  page_title : String
  content_sample : String
  detection_score : ℚ
  detection_reasons : List String
deriving DecidableEq

/-- `urljoin(base_url, href)` for the two href shapes the source accepts:
root-relative (`/…`, including protocol-relative `//…`) and absolute. -/
def urljoinModel (base href : String) : String :=
  if ['/', '/'].isPrefixOf href.data then urlScheme base ++ ":" ++ href
  else urlScheme base ++ "://" ++ urlNetloc base ++ href

/-- href resolution: root-relative joined against the base, absolute
(`http…`) kept, anything else skipped. -/
def absolutize (base href : String) : Option String :=
  if ['/'].isPrefixOf href.data then some (urljoinModel base href)
  else if ['h', 't', 't', 'p'].isPrefixOf href.data then some href
  else Option.none

/-- `.pdf`/`.jpg`/`.png`/`.gif` suffix test on the lower-cased URL. -/
def hasBadExt (u : String) : Bool :=
  [".pdf", ".jpg", ".png", ".gif"].any (fun e => e.data.isSuffixOf (asciiLower u).data)

/-- The link-harvesting pass over a fetched page (lines 212-236): skip
empty or overlong anchors, resolve the href, drop off-origin and
binary-extension targets, score, and keep only scores above 0.2. -/
def candidateLinks (page : Page) (baseUrl : String) : List (String × String × ℚ) :=
  page.links.filterMap
    (fun l =>
      let linkText := pyStrip l.2
      if linkText.data.isEmpty ∨ 100 < linkText.data.length then Option.none
      else
        match absolutize baseUrl l.1 with
        | Option.none => Option.none
        | some full =>
          if urlNetloc full ≠ urlNetloc baseUrl ∨ hasBadExt full then Option.none
          else
            let sc := (score_link_for_vendors linkText full).1
            if 0.2 < sc then some (full, linkText, sc) else Option.none)

/-- Stable insertion for the descending sort by score
(`vendor_links.sort(key=…, reverse=True)`; Python's sort is stable). -/
def insertByScoreDesc (x : String × String × ℚ) :
    List (String × String × ℚ) → List (String × String × ℚ)
  | [] => [x]
  | y :: ys => if y.2.2 < x.2.2 then x :: y :: ys else y :: insertByScoreDesc x ys

def sortByScoreDesc (l : List (String × String × ℚ)) : List (String × String × ℚ) :=
  l.foldr insertByScoreDesc []

/-- Lines 238-243: sort the harvested links by score, take the top three,
and queue the not-yet-visited ones at depth + 1. -/
def queueLinks (page : Page) (baseUrl : String) (visited : List String) (depth : Nat) :
    List (String × Nat) :=
  (((sortByScoreDesc (candidateLinks page baseUrl)).take 3).filter
      (fun l => ¬ l.1 ∈ visited)).map (fun l => (l.1, depth + 1))

/-- The `while to_visit and len(candidates) < 5` loop. Fuel only bounds the
number of iterations; every theorem below either holds for all fuel or
assumes enough of it. -/
def crawlLoop (fetch : String → Option Page) (marketName baseUrl : String)
    (maxDepth : Nat) :
    Nat → List (String × Nat) → List String → List VendorPageCandidate →
      List VendorPageCandidate
  | 0, _, _, cands => cands
  | _ + 1, [], _, cands => cands
  | fuel + 1, (url, depth) :: rest, visited, cands =>
    if 5 ≤ cands.length then cands
    else if url ∈ visited ∨ maxDepth ≤ depth then
      crawlLoop fetch marketName baseUrl maxDepth fuel rest visited cands
    else
      let visited' := url :: visited
      match fetch url with
      | Option.none => crawlLoop fetch marketName baseUrl maxDepth fuel rest visited' cands
      | some page =>
        if page.status ≠ 200 then
          crawlLoop fetch marketName baseUrl maxDepth fuel rest visited' cands
        else
          let content := cleanContent page.content
          let scored := analyze_content_for_vendors content
          let cands' :=
            if 0.3 ≤ scored.1 then
              cands ++ [{ market_name := marketName
                          page_url := url
                          page_title := (page.title.map pyStrip).getD "No title"
                          content_sample := strTake content 1000
                          detection_score := scored.1
                          detection_reasons := scored.2 }]
            else cands
          let toVisit' := if depth = 0 then rest ++ queueLinks page baseUrl visited' depth
                          else rest
          crawlLoop fetch marketName baseUrl maxDepth fuel toVisit' visited' cands'

/-- `find_vendor_page_candidates(market_name, base_url)` with a fresh
visited set (as `find_candidates_from_results` arranges per site). -/
def find_vendor_page_candidates (fetch : String → Option Page)
    (marketName baseUrl : String) (maxDepth fuel : Nat) : List VendorPageCandidate :=
  crawlLoop fetch marketName baseUrl maxDepth fuel [(baseUrl, 0)] [] []

end VPF

/-! ## `vendor_crawler.VendorPageCrawler.calculate_vendor_page_confidence`
(vendor_crawler.py, lines 163-181) -/

namespace VC

/-- `self.vendor_content_indicators`. -/
def vendor_content_indicators : List String :=
  ["specializes in", "produces", "offers", "family farm", "organic",
   "fresh", "locally grown", "artisan", "handmade", "bakery",
   "contact", "website", "phone", "email", "@", "www."]

/-- The shape of the dicts produced by
`VendorPageCrawler.extract_vendors_from_content`; only its length feeds
the confidence formula. -/
structure CrawlVendor where
  name : String
  vtype : String
  source : String
  url : String
  description : Option String
deriving DecidableEq

/-- `calculate_vendor_page_confidence(content, vendors)`. -/
def calculate_vendor_page_confidence (content : String) (vendors : List CrawlVendor) : ℚ :=
  let score : ℚ := 0 + min ((vendors.length : ℚ) * 0.1) 0.5
  let keyword_count := sumCounts (asciiLower content) vendor_content_indicators
  let score := score + min ((keyword_count : ℚ) * 0.02) 0.3
  let score := if 5 ≤ vendors.length then score + 0.2 else score
  min score 1

end VC

/-! ## `claude_vendor_extractor.py` — Vendor construction and per-page
error handling -/

namespace CVE

/-- The `Vendor` dataclass. Python dataclasses do not enforce their field
annotations, so every field holds whatever value `vendors_data` supplied;
absent optional fields are `None` and an absent confidence is the `0.8`
default of `vendor_data.get('confidence', 0.8)`. -/
structure Vendor where
  name : PyVal
  business_type : PyVal
  products : PyVal
  location : PyVal
  contact_info : PyVal
  description : PyVal
  confidence : PyVal

/-- The record-construction loop of `_extract_with_claude`
(claude_vendor_extractor.py, lines 195-210): keep dict entries that carry
a `name` key, fill the other fields with `.get`. -/
def vendorsFromData (vendorsData : List PyVal) : List Vendor :=
  vendorsData.filterMap
    (fun vd =>
      match vd with
      | .dict entries =>
        if dictHas "name" entries then
          some { name := (dictGet "name" entries).getD (.str "")
                 business_type := (dictGet "business_type" entries).getD .null
                 products := (dictGet "products" entries).getD .null
                 location := (dictGet "location" entries).getD .null
                 contact_info := (dictGet "contact_info" entries).getD .null
                 description := (dictGet "description" entries).getD .null
                 confidence := (dictGet "confidence" entries).getD (.num 0.8) }
        else Option.none
      | _ => Option.none)

/-- `_extract_with_claude` (lines 139-214), with the LLM call as an oracle
(`.error` = API exception). A decode failure sets `vendors_data = []`
(lines 187-193); iterating a non-list `vendors_data` raises and is caught
by the function's own handler, which returns `[]`. -/
def extractWithClaude (llm : Except String String) : List Vendor :=
  match llm with
  | .error _ => []
  | .ok responseText =>
    let vendorsData :=
      match json_loads responseText with
      | .ok v => v
      | .error _ => .list []
    match vendorsData with
    | .list items => vendorsFromData items
    | .dict [] => []
    | .str "" => []
    | .dict (_ :: _) => []
    | .str _ => []
    | _ => []

/-- `ExtractionResult` (the wall-clock `processing_time` field is elided:
real time is outside the embedding). -/
structure ExtractionResult where
  market_name : String
  market_url : String
  vendor_page_url : String
  vendors : List Vendor
  extraction_success : Bool
  error_message : Option String

/-- `extract_vendors_from_page` (lines 50-98): `fetchContent` is
`_fetch_page_content` (already `None` on any fetch error, lines 100-137),
`llm` the Claude API call. -/
def extract_vendors_from_page (fetchContent : String → Option String)
    (llm : String → Except String String) (marketName pageUrl : String) :
    ExtractionResult :=
  match fetchContent pageUrl with
  | Option.none =>
    { market_name := marketName
      market_url := ""
      vendor_page_url := pageUrl
      vendors := []
      extraction_success := false
      error_message := some "Failed to fetch page content" }
  | some content =>
    let vendors := extractWithClaude (llm content)
    { market_name := marketName
      market_url := ""
      vendor_page_url := pageUrl
      vendors := vendors
      extraction_success := true
      error_message := Option.none }

end CVE

/-! ## `llm_vendor_extractor.py` — extraction with `float()` coercion -/

namespace LVE

/-- `float(x)` for the values that can appear here: numbers pass through,
booleans become 0/1, numeric strings parse, anything else raises
(`ValueError`/`TypeError`). -/
def pyFloat : PyVal → Except String ℚ
  | .num q => .ok q
  | .bool b => .ok (if b then 1 else 0)
  | .str s =>
    (match parseNumTail (pyStrip s).data false with
     | .ok (q, []) => .ok q
     | _ =>
       match (pyStrip s).data with
       | '-' :: r =>
         (match parseNumTail r true with
          | .ok (q, []) => .ok q
          | _ => .error ("ValueError: could not convert string to float: " ++ s))
       | _ => .error ("ValueError: could not convert string to float: " ++ s))
  | .null => .error "TypeError: float() argument must be a string or a real number, not NoneType"
  | .list _ => .error "TypeError: float() argument must be a string or a real number, not list"
  | .dict _ => .error "TypeError: float() argument must be a string or a real number, not dict"

/-- The `ExtractedVendor` dataclass: `confidence` really is a float here,
because the constructor call wraps it in `float(…)`. -/
structure ExtractedVendor where
  name : PyVal
  business_type : PyVal
  products : PyVal
  description : PyVal
  contact_info : PyVal
  location : PyVal
  confidence : ℚ

/-- The conversion loop (llm_vendor_extractor.py, lines 124-136), in the
exception monad: a non-dict element raises `AttributeError` on `.get`, a
non-coercible confidence raises inside `float(…)`; either aborts the whole
extraction attempt. -/
def convertVendors : List PyVal → Except String (List ExtractedVendor)
  | [] => .ok []
  | vd :: rest =>
    match vd with
    | .dict entries =>
      (match pyFloat ((dictGet "confidence" entries).getD (.num 0.5)) with
       | .error e => .error e
       | .ok conf =>
         match convertVendors rest with
         | .error e => .error e
         | .ok vs =>
           .ok ({ name := (dictGet "name" entries).getD (.str "")
                  business_type := (dictGet "business_type" entries).getD .null
                  products := (dictGet "products" entries).getD .null
                  description := (dictGet "description" entries).getD .null
                  contact_info := (dictGet "contact_info" entries).getD .null
                  location := (dictGet "location" entries).getD .null
                  confidence := conf } :: vs))
    | _ => .error "AttributeError: object has no attribute get"

structure VendorExtractionResult where
  market_name : String
  page_url : String
  vendors : List ExtractedVendor
  extraction_success : Bool
  error_message : Option String

/-- The JSON-locating logic of `extract_vendors_from_content` (lines
102-119): bracket span from first `[` to last `]`, else the first fenced
block, else `ValueError`. When a closing fence is missing, Python's
`find` returns `-1` and the slice `[start:-1]` drops the final character. -/
def locateJson (responseText : String) : Except String String :=
  match strFind responseText "[", strRfindChar responseText ']' with
  | some jsonStart, some rClose => .ok (strSlice responseText jsonStart (rClose + 1))
  | _, _ =>
    if containsStr responseText (⟨[btick, btick, btick]⟩ ++ "json") then
      let jsonStart := (strFind responseText (⟨[btick, btick, btick]⟩ ++ "json")).getD 0 + 7
      match strFindFrom responseText ⟨[btick, btick, btick]⟩ jsonStart with
      | some jsonEnd => .ok (pyStrip (strSlice responseText jsonStart jsonEnd))
      | Option.none =>
        .ok (pyStrip (strSlice responseText jsonStart (responseText.data.length - 1)))
    else if containsStr responseText ⟨[btick, btick, btick]⟩ then
      let jsonStart := (strFind responseText ⟨[btick, btick, btick]⟩).getD 0 + 3
      match strFindFrom responseText ⟨[btick, btick, btick]⟩ jsonStart with
      | some jsonEnd => .ok (pyStrip (strSlice responseText jsonStart jsonEnd))
      | Option.none =>
        .ok (pyStrip (strSlice responseText jsonStart (responseText.data.length - 1)))
    else .error "No JSON array found in response"

/-- The `try` body of `extract_vendors_from_content` (lines 78-147): LLM
call, JSON location, `json.loads`, record conversion. -/
def extractBody (llm : Except String String) : Except String (List ExtractedVendor) :=
  match llm with
  | .error e => .error e
  | .ok resp =>
    match locateJson (pyStrip resp) with
    | .error e => .error e
    | .ok jsonContent =>
      match json_loads jsonContent with
      | .error e => .error e
      | .ok vendorData =>
        match vendorData with
        | .list items => convertVendors items
        | .dict [] => .ok []
        | .str "" => .ok []
        | .dict (_ :: _) => .error "AttributeError: object has no attribute get"
        | .str _ => .error "AttributeError: object has no attribute get"
        | _ => .error "TypeError: object is not iterable"

/-- `extract_vendors_from_content` (lines 74-159): the `except Exception`
handler converts any failure into a failure-flagged result with an empty
vendor list and the error text. -/
def extract_vendors_from_content (llm : Except String String)
    (marketName pageUrl : String) : VendorExtractionResult :=
  match extractBody llm with
  | .ok vendors =>
    { market_name := marketName
      page_url := pageUrl
      vendors := vendors
      extraction_success := true
      error_message := Option.none }
  | .error e =>
    { market_name := marketName
      page_url := pageUrl
      vendors := []
      extraction_success := false
      error_message := some e }

end LVE

/-! ## `comprehensive_vendor_extractor.process_market` — per-site
deduplication (lines 317-325) -/

namespace CompVE

/-- The vendor dicts assembled by `extract_vendors_from_page`
(comprehensive_vendor_extractor.py): the fields beside `name` ride along
untouched through deduplication. -/
structure VendorInfo where
  name : String
  page_url : String
  location : Option String
  products : List String
  description : Option String
deriving DecidableEq

/-- ```
seen_names = set(); unique_vendors = []
for vendor in result['vendors']:
    if vendor['name'] not in seen_names:
        unique_vendors.append(vendor); seen_names.add(vendor['name'])
``` -/
def dedupGo (seen : List String) : List VendorInfo → List VendorInfo
  | [] => []
  | v :: vs =>
    if v.name ∈ seen then dedupGo seen vs
    else v :: dedupGo (v.name :: seen) vs

/-- The deduplication pass over a site's accumulated vendor list. -/
def dedup_vendors (vendors : List VendorInfo) : List VendorInfo :=
  dedupGo [] vendors

end CompVE

/-! # Claims -/

/-! ## C8 — per-site deduplication by raw name -/

namespace CompVE

theorem dedupGo_filter_of_mem (n : String) :
    ∀ (seen : List String) (vs : List VendorInfo), n ∈ seen →
      (dedupGo seen vs).filter (fun v => v.name == n) = [] := by
  intro seen vs
  induction vs generalizing seen with
  | nil => intro _; rfl
  | cons v vs ih =>
    intro h
    simp only [dedupGo]
    split_ifs with hv
    · exact ih seen h
    · have hne : ¬ v.name = n := fun he => hv (he ▸ h)
      rw [List.filter_cons]
      simp only [beq_iff_eq, hne, if_false]
      exact ih (v.name :: seen) (by simp [h])

theorem dedupGo_filter_one (n : String) :
    ∀ (vs : List VendorInfo) (seen : List String), n ∉ seen →
      (∃ v ∈ vs, v.name = n) →
      ((dedupGo seen vs).filter (fun v => v.name == n)).length = 1 := by
  intro vs
  induction vs with
  | nil => intro seen _ hex; simp at hex
  | cons v vs ih =>
    intro seen hn hex
    by_cases hvn : v.name = n
    · have hvseen : ¬ v.name ∈ seen := fun hm => hn (hvn ▸ hm)
      simp only [dedupGo, if_neg (by simpa using hvseen)]
      rw [List.filter_cons]
      simp only [beq_iff_eq, hvn, if_true]
      have hdone : (dedupGo (v.name :: seen) vs).filter (fun v => v.name == n) = [] :=
        dedupGo_filter_of_mem n (v.name :: seen) vs (by simp [hvn])
      rw [hvn] at hdone
      simp [hdone]
    · have hex' : ∃ w ∈ vs, w.name = n := by
        rcases hex with ⟨w, hw, hwn⟩
        rcases List.mem_cons.mp hw with hw1 | hw2
        · exact absurd (hw1 ▸ hwn) hvn
        · exact ⟨w, hw2, hwn⟩
      simp only [dedupGo]
      split_ifs with hv
      · exact ih seen hn hex'
      · rw [List.filter_cons]
        simp only [beq_iff_eq, hvn, if_false]
        have hnn : ¬ n ∈ (v.name :: seen) := by
          intro hm
          rcases List.mem_cons.mp hm with h1 | h2
          · exact hvn h1.symm
          · exact hn h2
        exact ih (v.name :: seen) hnn hex'

end CompVE

/-- C8: within one site's accumulated vendor list, records are merged by
exact match on the raw extracted `name` string — whenever at least one
record with a given raw name occurs (possibly several, from different
pages, with different `page_url`s), the deduplicated list of
`process_market` retains exactly one record with that name. -/
theorem C8_dedup_raw_name (vs : List CompVE.VendorInfo) (n : String)
    (h : ∃ v ∈ vs, v.name = n) :
    ((CompVE.dedup_vendors vs).filter (fun v => v.name == n)).length = 1 :=
  CompVE.dedupGo_filter_one n vs [] (by simp) h

/-- Witness for C8: two records with the identical raw name
`"Alpha Farm"` coming from two different pages collapse to exactly one
record. -/
theorem C8_dedup_raw_name_witness :
    (∃ v ∈ [({ name := "Alpha Farm", page_url := "http://m.example/page1",
               location := Option.none, products := [], description := Option.none } :
                 CompVE.VendorInfo),
             { name := "Alpha Farm", page_url := "http://m.example/page2",
               location := Option.none, products := [], description := Option.none }],
        v.name = "Alpha Farm") ∧
    ((CompVE.dedup_vendors
        [{ name := "Alpha Farm", page_url := "http://m.example/page1",
           location := Option.none, products := [], description := Option.none },
         { name := "Alpha Farm", page_url := "http://m.example/page2",
           location := Option.none, products := [], description := Option.none }]).filter
        (fun v => v.name == "Alpha Farm")).length = 1 :=
  ⟨by decide, C8_dedup_raw_name _ "Alpha Farm" (by decide)⟩

/-! ## C5 — the content scorers are clamped to [0, 1] -/

namespace VPF

theorem scoreVendorNames_nonneg (n : Nat) : 0 ≤ scoreVendorNames n := by
  unfold scoreVendorNames; split_ifs <;> norm_num

theorem scoreBusiness_nonneg (n : Nat) : 0 ≤ scoreBusiness n := by
  unfold scoreBusiness; split_ifs <;> norm_num

theorem scoreProduct_nonneg (n : Nat) : 0 ≤ scoreProduct n := by
  unfold scoreProduct; split_ifs <;> norm_num

theorem scoreContact_nonneg (n : Nat) : 0 ≤ scoreContact n := by
  unfold scoreContact; split_ifs <;> norm_num

theorem scoreListPat_nonneg (n : Nat) : 0 ≤ scoreListPat n := by
  unfold scoreListPat; split_ifs <;> norm_num

theorem scorePhone_nonneg (n : Nat) : 0 ≤ scorePhone n := by
  unfold scorePhone; split_ifs <;> norm_num

theorem scoreEmail_nonneg (n : Nat) : 0 ≤ scoreEmail n := by
  unfold scoreEmail; split_ifs <;> norm_num

theorem analyze_content_for_vendors_nonneg (content : String) :
    0 ≤ (analyze_content_for_vendors content).1 := by
  unfold analyze_content_for_vendors
  dsimp only
  refine le_min ?_ (by norm_num)
  have h1 := scoreVendorNames_nonneg (sumCounts (asciiLower content) vendor_names_indicators)
  have h2 := scoreBusiness_nonneg (sumCounts (asciiLower content) business_indicators)
  have h3 := scoreProduct_nonneg (sumCounts (asciiLower content) product_indicators)
  have h4 := scoreContact_nonneg (sumCounts (asciiLower content) contact_indicators)
  have h5 := scoreListPat_nonneg (countScan matchListPat (content.data.length + 1) content.data)
  have h6 := scorePhone_nonneg (countScanB matchPhoneAt (content.data.length + 1) false content.data)
  have h7 := scoreEmail_nonneg (countScanB matchEmailAt (content.data.length + 1) false content.data)
  linarith

end VPF

/-- C5: for every input text, the Content Scorer's score lies in `[0, 1]` —
both `analyze_content_for_vendors` (vendor_page_finder.py) and
`calculate_vendor_page_confidence` (vendor_crawler.py) return a sum of
non-negative banded sub-scores that is clamped by `min(score, 1.0)`, so it
can neither go negative nor exceed the ceiling however often the scoring
keywords repeat. -/
theorem C5_content_scorer_bounds :
    (∀ content : String,
      0 ≤ (VPF.analyze_content_for_vendors content).1 ∧
      (VPF.analyze_content_for_vendors content).1 ≤ 1) ∧
    (∀ (content : String) (vendors : List VC.CrawlVendor),
      0 ≤ VC.calculate_vendor_page_confidence content vendors ∧
      VC.calculate_vendor_page_confidence content vendors ≤ 1) := by
  constructor
  · intro content
    refine ⟨VPF.analyze_content_for_vendors_nonneg content, ?_⟩
    unfold VPF.analyze_content_for_vendors
    dsimp only
    exact min_le_right _ _
  · intro content vendors
    constructor
    · unfold VC.calculate_vendor_page_confidence
      dsimp only
      refine le_min ?_ (by norm_num)
      have h1 : (0 : ℚ) ≤ min ((vendors.length : ℚ) * 0.1) 0.5 :=
        le_min (by positivity) (by norm_num)
      have h2 : (0 : ℚ) ≤
          min ((sumCounts (asciiLower content) VC.vendor_content_indicators : ℚ) * 0.02) 0.3 :=
        le_min (by positivity) (by norm_num)
      split_ifs <;> linarith
    · unfold VC.calculate_vendor_page_confidence
      dsimp only
      exact min_le_right _ _

/-! ## C6 — high-tier vs low-tier anchor text in the Link Scorer -/

namespace VPF

theorem foldTierTextUrl_fst (tl up tn : String) (wT wU : ℚ) :
    ∀ (kws : List String) (acc : ℚ × List String),
      (foldTierTextUrl tl up wT wU tn kws acc).1 =
        acc.1 + wT * (kws.countP (fun k => containsStr tl k) : ℚ)
              + wU * (kws.countP (fun k => containsStr up k) : ℚ)
  | [], acc => by simp [foldTierTextUrl]
  | k :: ks, acc => by
    have ih := foldTierTextUrl_fst tl up tn wT wU ks
    simp only [foldTierTextUrl, List.foldl_cons] at ih ⊢
    rw [ih]
    by_cases h1 : containsStr tl k <;> by_cases h2 : containsStr up k
    all_goals simp [h1, h2, List.countP_cons]
    all_goals push_cast
    all_goals ring

theorem foldTierTextOnly_fst (tl tn : String) (wT : ℚ) :
    ∀ (kws : List String) (acc : ℚ × List String),
      (foldTierTextOnly tl wT tn kws acc).1 =
        acc.1 + wT * (kws.countP (fun k => containsStr tl k) : ℚ)
  | [], acc => by simp [foldTierTextOnly]
  | k :: ks, acc => by
    have ih := foldTierTextOnly_fst tl tn wT ks
    simp only [foldTierTextOnly, List.foldl_cons] at ih ⊢
    rw [ih]
    by_cases h1 : containsStr tl k
    all_goals simp [h1, List.countP_cons]
    all_goals push_cast
    all_goals ring

/-- The pre-clamp link score: the weighted tier counts that
`score_link_for_vendors` accumulates before `min(score, 1.0)`. -/
def rawLinkScore (link_text link_url : String) : ℚ :=
  0.4 * (high_priority_keywords.countP
      (fun k => containsStr (pyStrip (asciiLower link_text)) k) : ℚ)
  + 0.3 * (high_priority_keywords.countP
      (fun k => containsStr (asciiLower (urlPath link_url)) k) : ℚ)
  + 0.2 * (medium_priority_keywords.countP
      (fun k => containsStr (pyStrip (asciiLower link_text)) k) : ℚ)
  + 0.15 * (medium_priority_keywords.countP
      (fun k => containsStr (asciiLower (urlPath link_url)) k) : ℚ)
  + 0.1 * (low_priority_keywords.countP
      (fun k => containsStr (pyStrip (asciiLower link_text)) k) : ℚ)

/-- The link score is the clamped raw score. -/
theorem score_link_raw (link_text link_url : String) :
    (score_link_for_vendors link_text link_url).1 = min (rawLinkScore link_text link_url) 1 := by
  unfold score_link_for_vendors rawLinkScore
  dsimp only
  rw [foldTierTextOnly_fst, foldTierTextUrl_fst, foldTierTextUrl_fst]
  ring_nf

end VPF

/-- C6 counterexample: the claimed strict dominance of a high-tier anchor
over an otherwise-identical low-tier anchor fails when the shared URL-path
contribution saturates the 1.0 clamp. Anchor `"farmers"` contains the
high-tier keyword `farmers`; anchor `"vendor list"` contains no high- or
medium-tier keyword and exactly one low-tier keyword; on the link URL
`http://example.com/vendors/farmers/growers/producers` both anchors score
exactly 1 — not strictly ordered. -/
theorem C6_counterexample :
    containsStr (pyStrip (asciiLower "farmers")) "farmers" = true ∧
    "farmers" ∈ VPF.high_priority_keywords ∧
    (VPF.high_priority_keywords.all
      (fun k => ¬ containsStr (pyStrip (asciiLower "vendor list")) k)) = true ∧
    (VPF.medium_priority_keywords.all
      (fun k => ¬ containsStr (pyStrip (asciiLower "vendor list")) k)) = true ∧
    (VPF.low_priority_keywords.countP
      (fun k => containsStr (pyStrip (asciiLower "vendor list")) k)) = 1 ∧
    (VPF.score_link_for_vendors "farmers"
        "http://example.com/vendors/farmers/growers/producers").1 =
      (VPF.score_link_for_vendors "vendor list"
        "http://example.com/vendors/farmers/growers/producers").1 := by
  refine ⟨by decide, by decide, by decide, by decide, by decide, ?_⟩
  rw [VPF.score_link_raw, VPF.score_link_raw]
  have hA : VPF.rawLinkScore "farmers"
      "http://example.com/vendors/farmers/growers/producers" = 1.45 := by
    unfold VPF.rawLinkScore
    rw [show (VPF.high_priority_keywords.countP
        (fun k => containsStr (pyStrip (asciiLower "farmers")) k)) = 1 from by decide]
    rw [show (VPF.high_priority_keywords.countP
        (fun k => containsStr (asciiLower (VPF.urlPath
          "http://example.com/vendors/farmers/growers/producers")) k)) = 3 from by decide]
    rw [show (VPF.medium_priority_keywords.countP
        (fun k => containsStr (pyStrip (asciiLower "farmers")) k)) = 0 from by decide]
    rw [show (VPF.medium_priority_keywords.countP
        (fun k => containsStr (asciiLower (VPF.urlPath
          "http://example.com/vendors/farmers/growers/producers")) k)) = 1 from by decide]
    rw [show (VPF.low_priority_keywords.countP
        (fun k => containsStr (pyStrip (asciiLower "farmers")) k)) = 0 from by decide]
    norm_num
  have hB : VPF.rawLinkScore "vendor list"
      "http://example.com/vendors/farmers/growers/producers" = 1.15 := by
    unfold VPF.rawLinkScore
    rw [show (VPF.high_priority_keywords.countP
        (fun k => containsStr (pyStrip (asciiLower "vendor list")) k)) = 0 from by decide]
    rw [show (VPF.high_priority_keywords.countP
        (fun k => containsStr (asciiLower (VPF.urlPath
          "http://example.com/vendors/farmers/growers/producers")) k)) = 3 from by decide]
    rw [show (VPF.medium_priority_keywords.countP
        (fun k => containsStr (pyStrip (asciiLower "vendor list")) k)) = 0 from by decide]
    rw [show (VPF.medium_priority_keywords.countP
        (fun k => containsStr (asciiLower (VPF.urlPath
          "http://example.com/vendors/farmers/growers/producers")) k)) = 1 from by decide]
    rw [show (VPF.low_priority_keywords.countP
        (fun k => containsStr (pyStrip (asciiLower "vendor list")) k)) = 1 from by decide]
    norm_num
  rw [hA, hB]
  rw [min_eq_right (by norm_num), min_eq_right (by norm_num)]

/-- C6 (amended): the strict inequality does hold whenever the low-tier
link's clamped score is still below the 1.0 ceiling. If anchor `tA`
contains some high-tier keyword while anchor `tB` contains no high- or
medium-tier keyword and exactly one low-tier keyword, and
`score(tB, url) < 1`, then `score(tB, url) < score(tA, url)` on the same
URL. -/
theorem C6_amended (tA tB url : String)
    (hA : ∃ k ∈ VPF.high_priority_keywords,
        containsStr (pyStrip (asciiLower tA)) k = true)
    (hBhigh : ∀ k ∈ VPF.high_priority_keywords,
        containsStr (pyStrip (asciiLower tB)) k = false)
    (hBmed : ∀ k ∈ VPF.medium_priority_keywords,
        containsStr (pyStrip (asciiLower tB)) k = false)
    (hBlow : (VPF.low_priority_keywords.countP
        (fun k => containsStr (pyStrip (asciiLower tB)) k)) = 1)
    (hclamp : (VPF.score_link_for_vendors tB url).1 < 1) :
    (VPF.score_link_for_vendors tB url).1 < (VPF.score_link_for_vendors tA url).1 := by
  have hBhigh0 : (VPF.high_priority_keywords.countP
      (fun k => containsStr (pyStrip (asciiLower tB)) k)) = 0 :=
    List.countP_eq_zero.mpr (fun k hk => by simp [hBhigh k hk])
  have hBmed0 : (VPF.medium_priority_keywords.countP
      (fun k => containsStr (pyStrip (asciiLower tB)) k)) = 0 :=
    List.countP_eq_zero.mpr (fun k hk => by simp [hBmed k hk])
  have hA1 : 1 ≤ (VPF.high_priority_keywords.countP
      (fun k => containsStr (pyStrip (asciiLower tA)) k)) := by
    rcases hA with ⟨k, hk, hck⟩
    exact List.countP_pos.mpr ⟨k, hk, by simp [hck]⟩
  set cHu : ℚ := (VPF.high_priority_keywords.countP
      (fun k => containsStr (asciiLower (VPF.urlPath url)) k) : ℚ) with hcHu
  set cMu : ℚ := (VPF.medium_priority_keywords.countP
      (fun k => containsStr (asciiLower (VPF.urlPath url)) k) : ℚ) with hcMu
  have hcHu0 : 0 ≤ cHu := by rw [hcHu]; positivity
  have hcMu0 : 0 ≤ cMu := by rw [hcMu]; positivity
  have hBval : VPF.rawLinkScore tB url = 0.3 * cHu + 0.15 * cMu + 0.1 := by
    unfold VPF.rawLinkScore
    rw [hBhigh0, hBmed0, hBlow]
    push_cast
    ring
  have hAge : 0.4 + (0.3 * cHu + 0.15 * cMu) ≤ VPF.rawLinkScore tA url := by
    unfold VPF.rawLinkScore
    have h1 : (1 : ℚ) ≤ (VPF.high_priority_keywords.countP
        (fun k => containsStr (pyStrip (asciiLower tA)) k) : ℚ) := by exact_mod_cast hA1
    have h2 : (0 : ℚ) ≤ (VPF.medium_priority_keywords.countP
        (fun k => containsStr (pyStrip (asciiLower tA)) k) : ℚ) := by positivity
    have h3 : (0 : ℚ) ≤ (VPF.low_priority_keywords.countP
        (fun k => containsStr (pyStrip (asciiLower tA)) k) : ℚ) := by positivity
    linarith
  rw [VPF.score_link_raw, hBval] at hclamp ⊢
  rw [VPF.score_link_raw]
  have hrawB : 0.3 * cHu + 0.15 * cMu + 0.1 < 1 :=
    (min_lt_iff.mp hclamp).resolve_right (by norm_num)
  rw [min_eq_left (le_of_lt hrawB)]
  rw [lt_min_iff]
  exact ⟨by linarith, hrawB⟩

/-- Witness for the amended C6: anchor `"Our Vendors"` (high tier) strictly
beats anchor `"artisans"` (exactly one low-tier keyword) on a URL whose
path contributes nothing, so the clamp is inactive. -/
theorem C6_amended_witness :
    (VPF.score_link_for_vendors "artisans" "http://example.com/").1 <
      (VPF.score_link_for_vendors "Our Vendors" "http://example.com/").1 :=
  C6_amended "Our Vendors" "artisans" "http://example.com/"
    (by decide) (by decide) (by decide) (by decide)
    (by
      rw [VPF.score_link_raw]
      have hB : VPF.rawLinkScore "artisans" "http://example.com/" = 0.1 := by
        unfold VPF.rawLinkScore
        rw [show (VPF.high_priority_keywords.countP
            (fun k => containsStr (pyStrip (asciiLower "artisans")) k)) = 0 from by decide]
        rw [show (VPF.high_priority_keywords.countP
            (fun k => containsStr (asciiLower (VPF.urlPath "http://example.com/")) k)) = 0
          from by decide]
        rw [show (VPF.medium_priority_keywords.countP
            (fun k => containsStr (pyStrip (asciiLower "artisans")) k)) = 0 from by decide]
        rw [show (VPF.medium_priority_keywords.countP
            (fun k => containsStr (asciiLower (VPF.urlPath "http://example.com/")) k)) = 0
          from by decide]
        rw [show (VPF.low_priority_keywords.countP
            (fun k => containsStr (pyStrip (asciiLower "artisans")) k)) = 1 from by decide]
        norm_num
      rw [hB]
      rw [min_eq_left (by norm_num)]
      norm_num)

/-! ## C7 — Vendor confidence: defaults vs claimed coercion -/

/-- C7 counterexample: a parsed record that supplies a *non-numeric*
confidence is not coerced to the call-site default. The Claude extractor's
constructor stores the string `"high"` verbatim in the `confidence` field
(Python dataclasses do not enforce the `float` annotation), so the built
Vendor carries a non-numeric confidence — not in `[0, 1]` and not the 0.8
default; and the LLM extractor's `float(…)` wrapper raises instead,
failing the whole page's extraction rather than building the record with
the 0.5 default. -/
theorem C7_counterexample :
    ((CVE.vendorsFromData
        [PyVal.dict [("name", PyVal.str "Sunny Farm"),
                     ("confidence", PyVal.str "high")]]).map
      (fun v => v.confidence)) = [PyVal.str "high"] ∧
    PyVal.isNum (PyVal.str "high") = false ∧
    (LVE.extract_vendors_from_content
        (.ok "[\x7b\"name\": \"Sunny Farm\", \"confidence\": \"high\"\x7d]")
        "Market" "http://m.example/vendors").extraction_success = false ∧
    (LVE.extract_vendors_from_content
        (.ok "[\x7b\"name\": \"Sunny Farm\", \"confidence\": \"high\"\x7d]")
        "Market" "http://m.example/vendors").vendors = [] := by
  exact ⟨rfl, rfl, rfl, rfl⟩

/-- C7 (amended): when the parsed record *omits* the confidence field, both
constructors do fall back to their call-site defaults, which lie in
`[0, 1]`: the Claude extractor fills in `0.8` and the LLM extractor
`float(0.5) = 0.5`. (A present but non-numeric confidence is *not*
coerced: see the counterexample.) -/
theorem C7_amended (entries : List (String × PyVal))
    (hname : dictHas "name" entries = true)
    (hconf : dictGet "confidence" entries = Option.none) :
    ((CVE.vendorsFromData [PyVal.dict entries]).map (fun v => v.confidence))
        = [PyVal.num 0.8] ∧
    (0 : ℚ) ≤ 0.8 ∧ (0.8 : ℚ) ≤ 1 ∧
    (∃ vs, LVE.convertVendors [PyVal.dict entries] = .ok vs ∧
      vs.map (fun v => v.confidence) = [(0.5 : ℚ)] ∧
      (0 : ℚ) ≤ 0.5 ∧ (0.5 : ℚ) ≤ 1) := by
  refine ⟨?_, by norm_num, by norm_num, ?_⟩
  · unfold CVE.vendorsFromData
    simp [hname, hconf]
  · unfold LVE.convertVendors
    dsimp only
    rw [hconf]
    exact ⟨_, rfl, rfl, by norm_num, by norm_num⟩

/-- Witness for the amended C7 at the record `{"name": "Sunny Farm"}`
(no confidence field). -/
theorem C7_amended_witness :
    ((CVE.vendorsFromData
        [PyVal.dict [("name", PyVal.str "Sunny Farm")]]).map (fun v => v.confidence))
        = [PyVal.num 0.8] ∧
    (0 : ℚ) ≤ 0.8 ∧ (0.8 : ℚ) ≤ 1 ∧
    (∃ vs, LVE.convertVendors [PyVal.dict [("name", PyVal.str "Sunny Farm")]] = .ok vs ∧
      vs.map (fun v => v.confidence) = [(0.5 : ℚ)] ∧
      (0 : ℚ) ≤ 0.5 ∧ (0.5 : ℚ) ≤ 1) :=
  C7_amended [("name", PyVal.str "Sunny Farm")] (by decide) rfl

/-! ## C9 — failure at page scope: what is flagged and what is swallowed -/

/-- C9 counterexample: an LLM-call failure in the Claude extractor is *not*
converted into a failure-flagged result. `_extract_with_claude` catches
the API exception itself and returns `[]`, so `extract_vendors_from_page`
reports `extraction_success = True` with an empty vendor list and *no*
error message — contradicting the claimed "success flag False … error
description set" for LLM-call failures. -/
theorem C9_counterexample :
    (CVE.extract_vendors_from_page
        (fun _ => some "Fresh produce from local farms every Saturday.")
        (fun _ => .error "Claude API error: rate limited")
        "Market" "http://m.example/vendors").extraction_success = true ∧
    (CVE.extract_vendors_from_page
        (fun _ => some "Fresh produce from local farms every Saturday.")
        (fun _ => .error "Claude API error: rate limited")
        "Market" "http://m.example/vendors").vendors = [] ∧
    (CVE.extract_vendors_from_page
        (fun _ => some "Fresh produce from local farms every Saturday.")
        (fun _ => .error "Claude API error: rate limited")
        "Market" "http://m.example/vendors").error_message = Option.none :=
  ⟨rfl, rfl, rfl⟩

/-- C9 (amended): failures are caught at page scope and never escape, but
the flagging differs by extractor and failure kind: (a) a fetch failure in
the Claude extractor yields a failure-flagged result with an empty vendor
list and the fixed error description; (b) an LLM-call failure in the LLM
extractor yields a failure-flagged result carrying the exception text;
(c) an LLM-call failure in the Claude extractor is swallowed inside
`_extract_with_claude` and surfaces as a *success*-flagged result with an
empty vendor list and no error message. -/
theorem C9_amended (fetchFail fetchOk : String → Option String)
    (llm : String → Except String String) (market page content e : String)
    (hffail : fetchFail page = Option.none)
    (hfok : fetchOk page = some content)
    (hllm : llm content = .error e) :
    CVE.extract_vendors_from_page fetchFail llm market page =
      { market_name := market, market_url := "", vendor_page_url := page,
        vendors := [], extraction_success := false,
        error_message := some "Failed to fetch page content" } ∧
    LVE.extract_vendors_from_content (.error e) market page =
      { market_name := market, page_url := page, vendors := [],
        extraction_success := false, error_message := some e } ∧
    CVE.extract_vendors_from_page fetchOk llm market page =
      { market_name := market, market_url := "", vendor_page_url := page,
        vendors := [], extraction_success := true,
        error_message := Option.none } := by
  refine ⟨?_, rfl, ?_⟩
  · unfold CVE.extract_vendors_from_page
    rw [hffail]
  · unfold CVE.extract_vendors_from_page
    rw [hfok]
    dsimp only
    rw [hllm]
    rfl

/-- Witness for the amended C9 at a concrete unreachable page, a concrete
reachable page and a concrete failing LLM call. -/
theorem C9_amended_witness :
    CVE.extract_vendors_from_page (fun _ => Option.none)
        (fun _ => .error "Claude API error: overloaded") "Market" "http://m.example/v" =
      { market_name := "Market", market_url := "", vendor_page_url := "http://m.example/v",
        vendors := [], extraction_success := false,
        error_message := some "Failed to fetch page content" } ∧
    LVE.extract_vendors_from_content (.error "Claude API error: overloaded")
        "Market" "http://m.example/v" =
      { market_name := "Market", page_url := "http://m.example/v", vendors := [],
        extraction_success := false,
        error_message := some "Claude API error: overloaded" } ∧
    CVE.extract_vendors_from_page (fun _ => some "page text")
        (fun _ => .error "Claude API error: overloaded") "Market" "http://m.example/v" =
      { market_name := "Market", market_url := "", vendor_page_url := "http://m.example/v",
        vendors := [], extraction_success := true,
        error_message := Option.none } :=
  C9_amended (fun _ => Option.none) (fun _ => some "page text")
    (fun _ => .error "Claude API error: overloaded")
    "Market" "http://m.example/v" "page text" "Claude API error: overloaded"
    rfl rfl rfl

/-! ## C2 — what the resilient parsers return, and that nothing escapes -/

/-- The length of a list value (`99` for non-lists). -/
def PyVal.listLen : PyVal → Nat
  | .list l => l.length
  | _ => 99

/-- debug_json_parsing.py's test case 4: plain prose, no structured
content. -/
def proseResponse : String :=
  "I searched through the website content but was unable to find a clear list of vendors. The page appears to be a general information page about the farmers market without specific vendor listings."

theorem improvedTry_ok (s : String) : ∃ v, improvedTry s = Except.ok v := by
  unfold improvedTry
  split
  · exact ⟨_, rfl⟩
  · split
    · exact ⟨_, rfl⟩
    · split
      · exact ⟨_, rfl⟩
      · split
        · exact ⟨_, rfl⟩
        · split
          · exact ⟨_, rfl⟩
          · exact ⟨_, rfl⟩

theorem debugTry_ok (s : String) : ∃ v, debugTry s = Except.ok v := by
  unfold debugTry
  dsimp only
  split
  · split
    · exact ⟨_, rfl⟩
    · split
      · exact ⟨_, rfl⟩
      · exact ⟨_, rfl⟩
  · split
    · exact ⟨_, rfl⟩
    · exact ⟨_, rfl⟩

/-- C2 counterexample: the parsers do not always return a *sequence*. When
the whole response is the JSON scalar `3`, both `improved_json_parser` and
`debug_parse_json_response` return the parsed number itself (Python
`json.loads` result), not a list. -/
theorem C2_counterexample :
    improvedJsonParser "3" = PyVal.num 3 ∧
    (PyVal.num 3).isList = false ∧
    debug_parse_json_response "3" = PyVal.num 3 := by
  refine ⟨?_, rfl, ?_⟩ <;> with_unfolding_all rfl

/-- C2 (amended): both parsers are total — every branch of their bodies
produces a value, so no exception ever reaches the caller (the outer
`except` handlers are unreachable) — and plain prose with no structured
content yields the empty list. The returned value, however, is whatever
JSON parses first, which need not be a sequence (see the
counterexample). -/
theorem C2_amended :
    (∀ s : String, ∃ v, improvedTry s = Except.ok v) ∧
    (∀ s : String, ∃ v, debugTry s = Except.ok v) ∧
    improvedJsonParser proseResponse = PyVal.list [] ∧
    debug_parse_json_response proseResponse = PyVal.list [] :=
  ⟨improvedTry_ok, debugTry_ok, rfl, rfl⟩

/-! ## C3 — trailing comma before the closing bracket -/

/-- The repository's own flat test array
(test_claude_response.py test case 1). -/
def vendorArrayFlat : String :=
  "[\x7b\"name\": \"Test Farm\", \"business_type\": \"farm\"\x7d]"

/-- The same array with one trailing comma before the closing bracket
(debug_json_parsing.py test case 3's shape). -/
def vendorArrayTrailingComma : String :=
  "[\x7b\"name\": \"Test Farm\", \"business_type\": \"farm\"\x7d,]"

/-- C3 counterexample: no trailing-comma stripping exists in either parser.
On the comma-free array `improved_json_parser` returns the one-element
list; with the trailing comma inserted, strict `json.loads` fails on every
bracket span and the brace-pattern fallback returns the *first JSON
object* — a mapping, not the list — so the two results differ.
`debug_parse_json_response` likewise degrades to the empty list rather
than the comma-free result. -/
theorem C3_counterexample :
    (improvedJsonParser vendorArrayFlat).tag = 4 ∧
    (improvedJsonParser vendorArrayTrailingComma).tag = 5 ∧
    improvedJsonParser vendorArrayTrailingComma ≠ improvedJsonParser vendorArrayFlat ∧
    (debug_parse_json_response vendorArrayFlat).listLen = 1 ∧
    (debug_parse_json_response vendorArrayTrailingComma).listLen = 0 ∧
    debug_parse_json_response vendorArrayTrailingComma ≠
      debug_parse_json_response vendorArrayFlat := by
  refine ⟨rfl, rfl, ?_, rfl, rfl, ?_⟩
  · intro h
    have ht1 : (improvedJsonParser vendorArrayTrailingComma).tag = 5 := rfl
    rw [h] at ht1
    have ht2 : (improvedJsonParser vendorArrayFlat).tag = 4 := rfl
    rw [ht2] at ht1
    exact absurd ht1 (by decide)
  · intro h
    have ht1 : (debug_parse_json_response vendorArrayTrailingComma).listLen = 0 := rfl
    rw [h] at ht1
    have ht2 : (debug_parse_json_response vendorArrayFlat).listLen = 1 := rfl
    rw [ht2] at ht1
    exact absurd ht1 (by decide)

/-- C3 (amended): a trailing comma is not stripped and retried; instead,
`improved_json_parser` falls through to its brace pattern and returns the
first array element as a bare mapping, while `debug_parse_json_response`
returns the empty list. -/
theorem C3_amended :
    improvedJsonParser vendorArrayFlat =
      PyVal.list [PyVal.dict [("name", PyVal.str "Test Farm"),
                              ("business_type", PyVal.str "farm")]] ∧
    improvedJsonParser vendorArrayTrailingComma =
      PyVal.dict [("name", PyVal.str "Test Farm"),
                  ("business_type", PyVal.str "farm")] ∧
    debug_parse_json_response vendorArrayTrailingComma = PyVal.list [] :=
  ⟨rfl, rfl, rfl⟩

/-! ## C4 — a fenced, prose-wrapped array vs the bare array -/

/-- First element of a list value (`.null` otherwise). -/
def PyVal.headVal : PyVal → PyVal
  | .list (x :: _) => x
  | _ => .null

/-- One step of the lazy-span scanner on text of the shape
`pre ++ "[" ++ mid ++ "]" ++ post` where `pre` contains no opening bracket
and `mid` no closing one: the first candidate span is exactly the bracketed
body. -/
theorem lazySpansAux_step (op cl : Char) (fuel : Nat) (pre mid post : List Char)
    (hpre : op ∉ pre) (hmid : cl ∉ mid) :
    lazySpansAux op cl (fuel + 1) (pre ++ op :: (mid ++ cl :: post)) =
      (op :: (mid ++ [cl])) :: lazySpansAux op cl fuel post := by
  have h1 : breakAtChar op (pre ++ op :: (mid ++ cl :: post)) =
      some (pre, mid ++ cl :: post) := by
    rw [breakAtChar_append_of_not_mem hpre, breakAtChar_cons_self]
    simp
  have h2 : breakAtChar cl (mid ++ cl :: post) = some (mid, post) := by
    rw [breakAtChar_append_of_not_mem hmid, breakAtChar_cons_self]
    simp
  simp only [lazySpansAux, h1, h2]

/-- C4 (amended): wrapping is transparent only for arrays whose elements
contain no nested closing bracket. If the well-formed array
`"[" ++ mid ++ "]"` has no `]` inside `mid`, the preceding text (prose and
the opening fence) contains no `[`, and the full wrapped text does not
itself parse as JSON, then `improved_json_parser` returns the same parsed
value for the wrapped text as for the bare array: the bare array parses
outright, and in the wrapped text the first lazy bracket span is exactly
the array. (With nested arrays inside elements the span is cut short and
a different value is returned — see the counterexample.) -/
theorem C4_amended (pre mid post : List Char) (v : PyVal) (err : String)
    (hpre : '[' ∉ pre) (hmid : ']' ∉ mid)
    (harr : json_loadsL ('[' :: (mid ++ [']'])) = .ok v)
    (hwhole : json_loads ⟨pre ++ '[' :: (mid ++ ']' :: post)⟩ = .error err) :
    improvedJsonParser ⟨pre ++ '[' :: (mid ++ ']' :: post)⟩ = v ∧
    improvedJsonParser ⟨'[' :: (mid ++ [']'])⟩ = v := by
  constructor
  · have key : improvedTry ⟨pre ++ '[' :: (mid ++ ']' :: post)⟩ = .ok v := by
      unfold improvedTry
      rw [hwhole]
      have hdata : (⟨pre ++ '[' :: (mid ++ ']' :: post)⟩ : String).data =
          pre ++ '[' :: (mid ++ ']' :: post) := rfl
      rw [hdata]
      unfold lazySpans
      rw [lazySpansAux_step '[' ']' _ pre mid post hpre hmid]
      simp only [firstOkParse, harr]
    unfold improvedJsonParser
    rw [key]
  · have key : improvedTry ⟨'[' :: (mid ++ [']'])⟩ = .ok v := by
      unfold improvedTry
      rw [show json_loads ⟨'[' :: (mid ++ [']'])⟩ = Except.ok v from harr]
    unfold improvedJsonParser
    rw [key]

/-- The repository's own fenced test response (test_claude_response.py,
test case 2), whose vendor objects carry nested `products` arrays. -/
def bareNestedArray : String :=
  "[\n  \x7b\"name\": \"AquaSprout Farms\", \"business_type\": \"farm\", \"products\": [\"greens\", \"lettuce\"]\x7d,\n  \x7b\"name\": \"Backer Farm\", \"business_type\": \"farm\", \"products\": [\"meat\", \"poultry\"]\x7d\n]"

def wrappedNestedArray : String :=
  "Here are the vendors I found:\n\n```json\n" ++ bareNestedArray ++
    "\n```\n\nThese vendors were extracted from the farmers market website."

/-- C4 counterexample: for the repository's own fenced example — whose
vendor objects contain nested `products` arrays — the wrapped text does
*not* parse to the bare array's value. The lazy bracket span is cut at the
first `]` (closing the first products list), that fragment fails to parse,
and the next span `["meat", "poultry"]` parses, so the parser returns the
inner products array instead of the two vendor records. -/
theorem C4_counterexample :
    improvedJsonParser wrappedNestedArray =
      PyVal.list [PyVal.str "meat", PyVal.str "poultry"] ∧
    (improvedJsonParser bareNestedArray).listLen = 2 ∧
    (improvedJsonParser bareNestedArray).headVal.tag = 5 ∧
    improvedJsonParser wrappedNestedArray ≠ improvedJsonParser bareNestedArray := by
  refine ⟨rfl, rfl, rfl, ?_⟩
  intro h
  have ht1 : (improvedJsonParser wrappedNestedArray).headVal.tag = 0 := rfl
  rw [h] at ht1
  have ht2 : (improvedJsonParser bareNestedArray).headVal.tag = 5 := rfl
  rw [ht2] at ht1
  exact absurd ht1 (by decide)

/-- The flat (no nested array) variant of the same wrapped response:
the interior and the trailing prose the amended C4 needs. -/
def flatMid : String :=
  "\n  \x7b\"name\": \"AquaSprout Farms\", \"business_type\": \"farm\"\x7d,\n  \x7b\"name\": \"Backer Farm\", \"business_type\": \"farm\"\x7d\n"

def flatPost : String :=
  "\n```\n\nThese vendors were extracted from the farmers market website."

/-- Witness for the amended C4 on the flat two-vendor array wrapped in the
```json fence with leading and trailing prose. -/
theorem C4_amended_witness :
    improvedJsonParser
        ⟨"Here are the vendors I found:\n\n```json\n".data ++
          '[' :: (flatMid.data ++ ']' :: flatPost.data)⟩ =
      PyVal.list
        [PyVal.dict [("name", PyVal.str "AquaSprout Farms"),
                     ("business_type", PyVal.str "farm")],
         PyVal.dict [("name", PyVal.str "Backer Farm"),
                     ("business_type", PyVal.str "farm")]] ∧
    improvedJsonParser ⟨'[' :: (flatMid.data ++ [']'])⟩ =
      PyVal.list
        [PyVal.dict [("name", PyVal.str "AquaSprout Farms"),
                     ("business_type", PyVal.str "farm")],
         PyVal.dict [("name", PyVal.str "Backer Farm"),
                     ("business_type", PyVal.str "farm")]] :=
  C4_amended "Here are the vendors I found:\n\n```json\n".data flatMid.data flatPost.data
    (PyVal.list
        [PyVal.dict [("name", PyVal.str "AquaSprout Farms"),
                     ("business_type", PyVal.str "farm")],
         PyVal.dict [("name", PyVal.str "Backer Farm"),
                     ("business_type", PyVal.str "farm")]])
    "Expecting value"
    (by decide) (by decide) rfl rfl

/-! ## C1 and C10 — the crawl frontier and its candidate invariants -/

namespace VPF

/-- Candidates already accepted are never dropped by the rest of the
crawl: the loop only ever appends. -/
theorem crawlLoop_mem (fetch : String → Option Page) (mn bu : String) (md : Nat) :
    ∀ (fuel : Nat) (tv : List (String × Nat)) (vis : List String)
      (cands : List VendorPageCandidate) (c : VendorPageCandidate),
      c ∈ cands → c ∈ crawlLoop fetch mn bu md fuel tv vis cands := by
  intro fuel
  induction fuel with
  | zero => intro tv vis cands c hc; simpa [crawlLoop] using hc
  | succ fuel ih =>
    intro tv vis cands c hc
    match tv with
    | [] => simpa [crawlLoop] using hc
    | (url, depth) :: rest =>
      simp only [crawlLoop]
      split_ifs with h1 h2 h5
      · exact hc
      · exact ih rest vis cands c hc
      all_goals
        cases hf : fetch url with
        | none => exact ih _ (url :: vis) cands c hc
        | some page =>
          by_cases h3 : page.status ≠ 200
          · simp only [if_pos h3]
            exact ih _ (url :: vis) cands c hc
          · simp only [if_neg h3]
            apply ih
            split_ifs with h4
            · exact List.mem_append_left _ hc
            · exact hc

/-- Every candidate the crawl produces clears the 0.3 threshold and
carries a content sample of at most 1000 characters. -/
theorem crawlLoop_inv (fetch : String → Option Page) (mn bu : String) (md : Nat) :
    ∀ (fuel : Nat) (tv : List (String × Nat)) (vis : List String)
      (cands : List VendorPageCandidate),
      (∀ c ∈ cands, 0.3 ≤ c.detection_score ∧ c.content_sample.data.length ≤ 1000) →
      ∀ c ∈ crawlLoop fetch mn bu md fuel tv vis cands,
        0.3 ≤ c.detection_score ∧ c.content_sample.data.length ≤ 1000 := by
  intro fuel
  induction fuel with
  | zero => intro tv vis cands hc c hmem; exact hc c (by simpa [crawlLoop] using hmem)
  | succ fuel ih =>
    intro tv vis cands hc c hmem
    match tv with
    | [] => exact hc c (by simpa [crawlLoop] using hmem)
    | (url, depth) :: rest =>
      simp only [crawlLoop] at hmem
      split_ifs at hmem with h1 h2 h5
      · exact hc c hmem
      · exact ih rest vis cands hc c hmem
      all_goals
        revert hmem
        cases hf : fetch url with
        | none => exact fun hmem => ih _ (url :: vis) cands hc c hmem
        | some page =>
          by_cases h3 : page.status ≠ 200
          · simp only [if_pos h3]
            exact fun hmem => ih _ (url :: vis) cands hc c hmem
          · simp only [if_neg h3]
            intro hmem
            refine ih _ _ _ ?_ c hmem
            intro d hd
            by_cases h4 : (0.3 : ℚ) ≤
                (analyze_content_for_vendors (cleanContent page.content)).1
            · rw [if_pos h4] at hd
              rcases List.mem_append.mp hd with hd1 | hd2
              · exact hc d hd1
              · rcases List.mem_singleton.mp hd2 with rfl
                refine ⟨h4, ?_⟩
                show (strTake (cleanContent page.content) 1000).data.length ≤ 1000
                unfold strTake
                simpa using List.length_take_le 1000 (cleanContent page.content).data
            · rw [if_neg h4] at hd
              exact hc d hd

end VPF

/-- C10: every `VendorPageCandidate` in the list returned by
`find_vendor_page_candidates` has `detection_score ≥ 0.3` (the minimum
content-score threshold) and a `content_sample` of at most 1000
characters; the threshold branch is the only place candidates are
appended, so a fetched page scoring below 0.3 contributes no candidate. -/
theorem C10_candidate_invariant (fetch : String → Option VPF.Page)
    (marketName baseUrl : String) (maxDepth fuel : Nat)
    (c : VPF.VendorPageCandidate)
    (hc : c ∈ VPF.find_vendor_page_candidates fetch marketName baseUrl maxDepth fuel) :
    0.3 ≤ c.detection_score ∧ c.content_sample.data.length ≤ 1000 :=
  VPF.crawlLoop_inv fetch marketName baseUrl maxDepth fuel [(baseUrl, 0)] [] []
    (by intro d hd; simp at hd) c hc

/-- A one-page site whose root text carries five business-type words, so
its content score is exactly the 0.3 threshold. -/
def fetchW : String → Option VPF.Page := fun u =>
  if u = "http://m.example" then
    some { status := 200, content := "farm bakery gardens orchard kitchen",
           title := some "Vendors", links := [] }
  else Option.none

def witnessCand : VPF.VendorPageCandidate :=
  { market_name := "Market", page_url := "http://m.example", page_title := "Vendors",
    content_sample := "farm bakery gardens orchard kitchen",
    detection_score := 0.3,
    detection_reasons := ["Many business type words found (5)"] }

/-- Witness for C10: the crawl of `fetchW` yields exactly `witnessCand`,
and the invariant holds of it. -/
theorem C10_candidate_invariant_witness :
    0.3 ≤ witnessCand.detection_score ∧
      witnessCand.content_sample.data.length ≤ 1000 :=
  C10_candidate_invariant fetchW "Market" "http://m.example" 2 4 witnessCand
    (by
      have h : VPF.find_vendor_page_candidates fetchW "Market" "http://m.example" 2 4 =
          [witnessCand] := by with_unfolding_all rfl
      rw [h]
      exact List.mem_singleton_self _)

/-- A reachable root page (HTTP 200) whose extracted text is empty, so its
content score is zero. -/
def fetchZero : String → Option VPF.Page := fun u =>
  if u = "http://zero.example" then
    some { status := 200, content := "", title := Option.none, links := [] }
  else Option.none

/-- C1 counterexample: the root page is *not* force-included. A site whose
root fetches successfully (status 200) but scores zero under the content
heuristics produces an *empty* candidate list — the root page appears
nowhere, refuting the claimed fallback floor. -/
theorem C1_counterexample :
    fetchZero "http://zero.example" =
      some { status := 200, content := "", title := Option.none, links := [] } ∧
    (VPF.analyze_content_for_vendors (cleanContent "")).1 = 0 ∧
    VPF.find_vendor_page_candidates fetchZero "Zero Market" "http://zero.example" 2 4
      = [] := by
  refine ⟨rfl, ?_, ?_⟩ <;> with_unfolding_all rfl

/-- C1 (amended): the root page is subject to the same `0.3` threshold as
every other page — it appears in the candidate list exactly when its own
content score clears the threshold. (The successful direction, proved
here: a reachable root whose cleaned content scores at least 0.3 is always
among the returned candidates' page URLs.) -/
theorem C1_amended (fetch : String → Option VPF.Page) (marketName baseUrl : String)
    (maxDepth fuel : Nat) (p : VPF.Page)
    (hf : fetch baseUrl = some p) (hs : p.status = 200)
    (hscore : 0.3 ≤ (VPF.analyze_content_for_vendors (cleanContent p.content)).1)
    (hd : 1 ≤ maxDepth) (hfuel : 1 ≤ fuel) :
    baseUrl ∈ (VPF.find_vendor_page_candidates fetch marketName baseUrl maxDepth fuel).map
      (fun c => c.page_url) := by
  obtain ⟨f, rfl⟩ : ∃ f, fuel = f + 1 := ⟨fuel - 1, by omega⟩
  unfold VPF.find_vendor_page_candidates
  simp only [VPF.crawlLoop]
  rw [if_neg (by simp)]
  rw [if_neg (show ¬ (baseUrl ∈ ([] : List String) ∨ maxDepth ≤ 0) by simp; omega)]
  rw [hf]
  simp only []
  rw [if_neg (by simp [hs])]
  rw [if_pos hscore]
  refine List.mem_map.mpr
    ⟨{ market_name := marketName, page_url := baseUrl,
       page_title := (Option.map pyStrip p.title).getD "No title",
       content_sample := strTake (cleanContent p.content) 1000,
       detection_score := (VPF.analyze_content_for_vendors (cleanContent p.content)).1,
       detection_reasons := (VPF.analyze_content_for_vendors (cleanContent p.content)).2 },
     VPF.crawlLoop_mem fetch marketName baseUrl maxDepth f _ _ _ _ ?_, rfl⟩
  simp

/-- Witness for the amended C1 on the one-page site `fetchW`, whose root
content scores exactly 0.3. -/
theorem C1_amended_witness :
    "http://m.example" ∈ (VPF.find_vendor_page_candidates fetchW "Market"
      "http://m.example" 2 4).map (fun c => c.page_url) :=
  C1_amended fetchW "Market" "http://m.example" 2 4
    { status := 200, content := "farm bakery gardens orchard kitchen",
      title := some "Vendors", links := [] }
    (by with_unfolding_all rfl) rfl
    (by with_unfolding_all decide) (by omega) (by omega)
